import Mathlib

/-!
rainchasers/content: snapshot routing, merge loop, bus client, producer loop.

A shallow embedding of

* `cmd/store/main.go`: `cache.Init` (routing-table registration),
  `cache.SnapshotRouter`, `cache.CreateSnapshotsWriter`;
* `queue/pubsub.go`: `New`, `Topic.Stop`, `Topic.Publish`, `Topic.Subscribe`;
* `cmd/ea/main.go`: the update loop of `config.run`, `config.durationBetweenPublish`;
* the wire codec `gauge.Snapshot.Encode` / `Decode`, modelled from the
  specification since only its tests and callers are among the sources.

Conventions.  Go maps are association lists read with `List.lookup`, an
assignment `m[k] = v` puts the pair in front.  Go slices are lists with value
semantics.  Instants (`time.Time`) are integers counting nanoseconds from Go's
zero instant, so the zero value of a `time.Time` is `0`.  A `float32` is
carried as its bit pattern; the code under study only copies such values.
Channels are numbered; a send `ch <- s` is recorded in the order it happens.
Errors are `Option String` (`none` is Go's `nil` error).
-/

namespace Rainchasers

/-! ## Data model -/

/-- Bit pattern of a Go `float32`. -/
abbrev Float32 := Nat

/-- Go `gauge.Station`, fields as listed by `internal/gauge/serialize_test.go`. -/
structure Station where
  DataURL : String
  AliasURL : String
  HumanURL : String
  Name : String
  RiverName : String
  Lat : Float32
  Lg : Float32
  /-- Go field `Type` (a reserved word here) -/
  Type_ : String
  Unit : String
deriving DecidableEq, Repr

instance : Inhabited Station := ⟨⟨"", "", "", "", "", 0, 0, "", ""⟩⟩

/-- Go `gauge.Reading`. -/
structure Reading where
  EventTime : Int
  Value : Float32
deriving DecidableEq, Repr

/-- Go `gauge.Snapshot`. -/
structure Snapshot where
  Station : Station
  Readings : List Reading
  CorrelationID : String
  CausationID : String
  ProcessedTime : Int
deriving DecidableEq, Repr

instance : Inhabited Snapshot := ⟨⟨default, [], "", "", 0⟩⟩

/-- Go `river.Calibration`.  Its declaration is not among the sources; the code
reads the field `URL` only, and `Data` stands for every other field. -/
structure Calibration where
  URL : String
  Data : Nat
deriving DecidableEq, Repr

/-- The zero value `var cal river.Calibration`. -/
instance : Inhabited Calibration := ⟨⟨"", 0⟩⟩

/-- Go `content.Section` (`river.Section`): the code reads `UUID` and the list
`Measures` of calibrations. -/
structure Section where
  UUID : String
  Measures : List Calibration
deriving DecidableEq, Repr

/-- Go `Measure` of `cmd/store`, with the four fields `CreateSnapshotsWriter`
reads and writes. -/
structure Measure where
  Station : Station
  Calibration : Calibration
  Readings : List Reading
  ProcessedTime : Int
deriving DecidableEq, Repr

/-- Go `Record` of `cmd/store`. -/
structure Record where
  Section : Section
  Measures : List Measure
deriving DecidableEq, Repr

/-! ## Routing (`cache.Init`, `cache.SnapshotRouter`) -/

/-- A listener channel `chan *gauge.Snapshot`, by number. -/
abbrev Chan := Nat

/-- Go `cache.SnapRoute : map[string][]chan *gauge.Snapshot`. -/
abbrev SnapRoute := List (String × List Chan)

/-- The slice read by `c.SnapRoute[url]` (empty when the key is absent). -/
def SnapRoute.at (route : SnapRoute) (url : String) : List Chan :=
  (route.lookup url).getD []

/-- The assignment `c.SnapRoute[m.URL] = append(c.SnapRoute[m.URL], ch)`. -/
def SnapRoute.register (route : SnapRoute) (url : String) (ch : Chan) : SnapRoute :=
  (url, route.at url ++ [ch]) :: route

/-- Lines 81-91 of `cache.Init` for one section: when the section has
calibrations, its channel `ch` is registered under the URL of each. -/
def registerSection (route : SnapRoute) (s : Section) (ch : Chan) : SnapRoute :=
  if s.Measures.length > 0 then
    s.Measures.foldl (fun r m => r.register m.URL ch) route
  else route

/-- The routing table `cache.Init` leaves behind: section number `i` of
`content.Sections` owns channel `i`. -/
def initRoutes (sections : List Section) : SnapRoute :=
  (sections.enum.foldl (fun r p => registerSection r p.2 p.1) [])

/-- The key set of the map `urls` of `SnapshotRouter` (lines 225-228). -/
def routeURLs (s : Snapshot) : List String :=
  [s.Station.DataURL, s.Station.AliasURL, s.Station.HumanURL].dedup

/-- The sends of the loop `for url := range urls` (lines 229-236) when the map
is walked in the order `order`. -/
def sendsFor (route : SnapRoute) (order : List String) : List Chan :=
  order.flatMap (fun url =>
    match route.lookup url with
    | some chs => chs
    | none => [])

/-- What one call of `SnapshotRouter` does. -/
structure Routed where
  /-- channels sent to, in order -/
  sent : List Chan
  /-- whether `snapshot.corrupted` was logged -/
  corrupted : Bool
  /-- the returned error -/
  err : Option String
deriving DecidableEq, Repr

/-- Go `cache.SnapshotRouter`.  A Go map is iterated in an unspecified order:
`order` is the order in which this call walks `urls`, a permutation of
`routeURLs s`. -/
def SnapshotRouter (route : SnapRoute) (err : Option String) (_s : Snapshot)
    (order : List String) : Routed :=
  match err with
  | some _ => { sent := [], corrupted := true, err := none }
  | none => { sent := sendsFor route order, corrupted := false, err := none }

/-! ## Merge loop (`cache.CreateSnapshotsWriter`) -/

/-- The three functions of `cmd/store` that `CreateSnapshotsWriter` calls and
whose bodies are not among the sources: `Measure.Checksum`, `merge` and
`removeOlderThan` (the latter as the new contents of the slice it is handed a
pointer to).  The loop is embedded over any choice of them.  Slices are
values here: the helpers are taken to build their result without writing into
the backing array of the readings they are given. -/
structure Helpers (χ : Type) where
  Checksum : Measure → χ
  merge : List Reading → List Reading → List Reading
  removeOlderThan : Int → List Reading → List Reading

/-- Go `4 * 24 * time.Hour`, in nanoseconds. -/
def retention : Int := 4 * 24 * 3600000000000

/-- Go `aliasURLToIndex : map[string]int`. -/
abbrev AliasIndex := List (String × Nat)

/-- The variables the closure of `CreateSnapshotsWriter` keeps between
iterations: its copy of `record` and the map `aliasURLToIndex`. -/
structure WriterState where
  record : Record
  aliasURLToIndex : AliasIndex
deriving DecidableEq, Repr

/-- Lines 106-109: the map built from the record before the loop starts. -/
def buildIndex (record : Record) : AliasIndex :=
  record.Measures.enum.foldl (fun idx p => (p.2.Station.AliasURL, p.1) :: idx) []

/-- The state in which the loop is entered. -/
def initWriter (record : Record) : WriterState :=
  { record := record, aliasURLToIndex := buildIndex record }

/-- Lines 136-147: the loop over `calibrations`, three tests per entry, each
overwriting `cal`. -/
def selectCalibration (calibrations : List Calibration) (st : Station) : Calibration :=
  calibrations.foldl (fun cal c =>
    let cal := if c.URL = st.DataURL then c else cal
    let cal := if c.URL = st.AliasURL then c else cal
    if c.URL = st.HumanURL then c else cal) default

/-- The text built at lines 149-150. -/
def misroutedError (record : Record) (snap : Snapshot) : String :=
  "incorrectly routed snapshot: " ++
    (record.Section.UUID ++ " with snap " ++ snap.Station.AliasURL)

/-- The composite literal of lines 156-160: station and calibration, no
readings, `ProcessedTime` at its zero value. -/
def placeholder (snap : Snapshot) (cal : Calibration) : Measure :=
  { Station := snap.Station, Calibration := cal, Readings := [], ProcessedTime := 0 }

/-- Lines 155-161: `m` is appended to `record.Measures` and its index is
recorded under the AliasURL of its station. -/
def WriterState.addMeasure (st : WriterState) (m : Measure) : WriterState :=
  { record := { st.record with Measures := st.record.Measures ++ [m] },
    aliasURLToIndex := (m.Station.AliasURL, st.record.Measures.length) :: st.aliasURLToIndex }

/-- Lines 132-162: the measure index the snapshot relates to, and the state
once a placeholder measure has been appended for a first snapshot; the error
text when no calibration was kept. -/
def resolve (calibrations : List Calibration) (st : WriterState) (snap : Snapshot) :
    Except String (Nat × WriterState) :=
  match st.aliasURLToIndex.lookup snap.Station.AliasURL with
  | some index => .ok (index, st)
  | none =>
    let cal := selectCalibration calibrations snap.Station
    if cal.URL = "" then
      .error (misroutedError st.record snap)
    else
      .ok (st.record.Measures.length, st.addMeasure (placeholder snap cal))

/-- Lines 172-178: the local `m` when its checksum is taken the second time. -/
def mergedMeasure {χ : Type} (h : Helpers χ) (m : Measure) (snap : Snapshot) (now : Int) :
    Measure :=
  let m := { m with Readings := h.merge m.Readings snap.Readings }
  let expiry := now - retention
  let m := { m with Readings := h.removeOlderThan expiry m.Readings }
  { m with Station := snap.Station }

/-- How one iteration of the loop ends. -/
inductive Exit where
  /-- the loop goes round again -/
  | next
  /-- the task returned, with this error or `nil` -/
  | returned (err : Option String)
  /-- the index `record.Measures[index]` was out of range (a run-time panic in Go) -/
  | outOfRange
deriving DecidableEq, Repr

/-- What one iteration of the loop does. -/
structure StepResult where
  /-- the closure's variables afterwards -/
  state : WriterState
  exit : Exit
  /-- the record handed to `c.Writer.Store`, if it was called -/
  stored : Option Record
  /-- names of the `c.Log.Action` events, with the section UUID -/
  actions : List (String × String)
deriving DecidableEq, Repr

/-- The assignment `record.Measures[index] = m` (line 186). -/
def Record.setMeasure (record : Record) (index : Nat) (m : Measure) : Record :=
  { record with Measures := record.Measures.set index m }

/-- The closure's variables once `record.Measures[index] = m` has run. -/
def WriterState.withMeasure (st : WriterState) (index : Nat) (m : Measure) : WriterState :=
  { st with record := st.record.setMeasure index m }

/-- Lines 172-184: the local `m` when it is written back, `ProcessedTime`
taken from the snapshot. -/
def acceptedMeasure {χ : Type} (h : Helpers χ) (m : Measure) (snap : Snapshot) (now : Int) :
    Measure :=
  { mergedMeasure h m snap now with ProcessedTime := snap.ProcessedTime }

/-- Lines 172-189 at a known index. -/
def mergeAt {χ : Type} [DecidableEq χ] (h : Helpers χ) (st : WriterState) (index : Nat)
    (snap : Snapshot) (now : Int) : StepResult :=
  match st.record.Measures[index]? with
  | none => { state := st, exit := .outOfRange, stored := none, actions := [] }
  | some m0 =>
    let checksum := h.Checksum m0
    if checksum = h.Checksum (mergedMeasure h m0 snap now) then
      { state := st, exit := .next, stored := none, actions := [] }
    else
      let m := acceptedMeasure h m0 snap now
      let record := st.record.setMeasure index m
      { state := st.withMeasure index m, exit := .next, stored := some record,
        actions := [] }

/-- What the `select` at lines 115-127 yields. -/
inductive Event where
  /-- the case `<-ctx.Done()` -/
  | done
  /-- the case `<-ticker.C`: four hours without a snapshot -/
  | idle
  /-- the case `snap = <-ch`; `now` is what `time.Now()` reads at line 176 -/
  | snap (snap : Snapshot) (now : Int)
deriving DecidableEq, Repr

/-- One iteration of the loop `nextSnapshot` (lines 112-190). -/
def nextSnapshot {χ : Type} [DecidableEq χ] (h : Helpers χ) (calibrations : List Calibration)
    (st : WriterState) : Event → StepResult
  | .done => { state := st, exit := .returned none, stored := none, actions := [] }
  | .idle => { state := st, exit := .next, stored := none,
               actions := [("snapshot.missing", st.record.Section.UUID)] }
  | .snap snap now =>
    match resolve calibrations st snap with
    | .error msg => { state := st, exit := .returned (some msg), stored := none, actions := [] }
    | .ok (index, st1) => mergeAt h st1 index snap now

/-- The records handed to `Writer.Store`, in order, while the loop consumes
`events` from state `st`; the loop stops consuming once an iteration does not
end in `next`. -/
def storeCalls {χ : Type} [DecidableEq χ] (h : Helpers χ) (calibrations : List Calibration) :
    WriterState → List Event → List Record
  | _, [] => []
  | st, e :: es =>
    let r := nextSnapshot h calibrations st e
    let rest := match r.exit with
      | .next => storeCalls h calibrations r.state es
      | _ => []
    r.stored.toList ++ rest

/-- The state after the loop has consumed `events` (the state at exit when an
iteration does not end in `next`). -/
def runWriter {χ : Type} [DecidableEq χ] (h : Helpers χ) (calibrations : List Calibration) :
    WriterState → List Event → WriterState
  | st, [] => st
  | st, e :: es =>
    let r := nextSnapshot h calibrations st e
    match r.exit with
    | .next => runWriter h calibrations r.state es
    | _ => r.state

/-- Go `cache.CreateSnapshotsWriter`: the task's variables once it has built
its index from `record` and its loop has consumed `events`. -/
def CreateSnapshotsWriter {χ : Type} [DecidableEq χ] (h : Helpers χ) (record : Record)
    (calibrations : List Calibration) (events : List Event) : WriterState :=
  runWriter h calibrations (initWriter record) events

/-- The index line 132 or line 155 settles on for `snap`. -/
def resolvedIndex (st : WriterState) (snap : Snapshot) : Nat :=
  (st.aliasURLToIndex.lookup snap.Station.AliasURL).getD st.record.Measures.length

/-! ### The helpers, from the specification -/

/-- Puts `r` into a list kept ascending by `EventTime`, replacing the reading
of the same instant if there is one. -/
def insertReading (r : Reading) : List Reading → List Reading
  | [] => [r]
  | x :: xs =>
    if r.EventTime < x.EventTime then r :: x :: xs
    else if r.EventTime = x.EventTime then r :: xs
    else x :: insertReading r xs

/-- Modelled from the spec: `merge` of `cmd/store`, whose body is not among the
sources.  "Combine existing Readings with the snapshot's Readings, keyed by
EventTime (incoming value replaces any existing reading at the same instant;
result is re-sorted ascending by EventTime)". -/
def merge (existing incoming : List Reading) : List Reading :=
  (existing ++ incoming).foldl (fun acc r => insertReading r acc) []

/-- Modelled from the spec: `removeOlderThan` of `cmd/store`, whose body is not
among the sources.  "Remove all Readings with EventTime older than now minus a
fixed window". -/
def removeOlderThan (expiry : Int) (readings : List Reading) : List Reading :=
  readings.filter (fun r => decide (expiry ≤ r.EventTime))

/-- Modelled from the spec: `Measure.Checksum` of `cmd/store`, whose body is not
among the sources.  "A checksum of the measure's current content (Station +
Readings)": the fingerprint is the content itself, so that it changes exactly
when the content does. -/
def Measure.Checksum (m : Measure) : Rainchasers.Station × List Reading :=
  (m.Station, m.Readings)

/-- The helpers as the specification describes them. -/
def specHelpers : Helpers (Station × List Reading) :=
  { Checksum := Measure.Checksum, merge := merge, removeOlderThan := removeOlderThan }

/-! ## Bus client (`queue/pubsub.go`) -/

/-- The handle `*pubsub.Topic` of the client library; `ID` is what `ID()` returns. -/
structure PubSubTopic where
  ID : String
deriving DecidableEq, Repr

/-- Go `queue.Topic`; `pubSub = none` is the `nil` pointer. -/
structure Topic where
  ProjectID : String
  pubSub : Option PubSubTopic
deriving DecidableEq, Repr

/-- A message of the bus: payload bytes, and a number to tell messages apart. -/
structure Message where
  ID : Nat
  Data : List Nat
deriving DecidableEq, Repr

/-- The calls the package makes into the client library, as they happen. -/
inductive BusCall where
  | newClient (projectID : String)
  | topicExists (topicName : String)
  | createTopic (topicName : String)
  | publish (data : List Nat)
  | stopTopic
  | subscriptionExists (subName : String)
  | createSubscription (subName : String) (ackDeadlineSeconds : Nat)
  | receive (subName : String)
  | ack (messageID : Nat)
  | deleteSubscription (subName : String)
deriving DecidableEq, Repr

/-- How the bus answers: the error (or result) of each library call. -/
structure Bus where
  newClient : String → Option String
  topicExists : String → Except String Bool
  createTopic : String → Option String
  publishGet : List Nat → Option String
  subscriptionExists : String → Except String Bool
  createSubscription : String → Option String
  /-- what `sub.Receive` returns once it stops -/
  receive : Option String

/-- A result together with the library calls made to obtain it. -/
structure Called (α : Type) where
  value : α
  calls : List BusCall

/-- Go `queue.New`; `len(projectID) == 0` is `projectID = ""`. -/
def New (bus : Bus) (projectID topicName : String) : Called (Except String Topic) :=
  if projectID = "" then
    ⟨.ok { ProjectID := "", pubSub := none }, []⟩
  else
    match bus.newClient projectID with
    | some err => ⟨.error err, [.newClient projectID]⟩
    | none =>
      match bus.topicExists topicName with
      | .error err => ⟨.error err, [.newClient projectID, .topicExists topicName]⟩
      | .ok true =>
        ⟨.ok { ProjectID := projectID, pubSub := some ⟨topicName⟩ },
          [.newClient projectID, .topicExists topicName]⟩
      | .ok false =>
        match bus.createTopic topicName with
        | some err =>
          ⟨.error err, [.newClient projectID, .topicExists topicName, .createTopic topicName]⟩
        | none =>
          ⟨.ok { ProjectID := projectID, pubSub := some ⟨topicName⟩ },
            [.newClient projectID, .topicExists topicName, .createTopic topicName]⟩

/-- Go `Topic.Stop`. -/
def Topic.Stop (t : Topic) : List BusCall :=
  match t.pubSub with
  | some _ => [.stopTopic]
  | none => []

/-- Go `Topic.Publish`.  `Encode` is `gauge.Snapshot.Encode`, whose body is not
among the sources: the bytes written, or its error. -/
def Topic.Publish (bus : Bus) (Encode : Snapshot → Except String (List Nat)) (t : Topic)
    (s : Snapshot) : Called (Option String) :=
  match Encode s with
  | .error err => ⟨some err, []⟩
  | .ok data =>
    match t.pubSub with
    | none => ⟨none, []⟩
    | some _ => ⟨bus.publishGet data, [.publish data]⟩

/-- What the callback given to `sub.Receive` did with one message. -/
structure Delivery where
  /-- the arguments `fn` was called with -/
  snapshot : Snapshot
  err : Option String
  /-- whether `m.Ack()` was called -/
  acked : Bool
deriving DecidableEq, Repr

/-- The callback of lines 113-118: decode, call `fn`, acknowledge.  `Decode` is
`gauge.Snapshot.Decode`, whose body is not among the sources: the snapshot
decoded into and the error.  The handler `fn` is a
`func(s *gauge.Snapshot, err error)`: it has no result. -/
def onMessage (Decode : List Nat → Snapshot × Option String)
    (fn : Snapshot → Option String → Unit) (m : Message) : Delivery :=
  let (s, err) := Decode m.Data
  match fn s err with
  | () => { snapshot := s, err := err, acked := true }

/-- What one call of `Topic.Subscribe` did. -/
structure Subscribed where
  err : Option String
  calls : List BusCall
  /-- one entry per message the callback ran on, in order -/
  deliveries : List Delivery
deriving DecidableEq, Repr

/-- The acknowledgements `sub.Receive` leads to, message by message. -/
def ackCalls (msgs : List Message) (ds : List Delivery) : List BusCall :=
  (msgs.zip ds).filterMap (fun p => if p.2.acked then some (.ack p.1.ID) else none)

/-- Lines 87-91: the subscription name, the topic ID, a dot and the consumer
group, the latter replaced by the time stamp when empty. -/
def subscriptionName (topic : PubSubTopic) (consumerGroup stamp : String) : String :=
  let deleteSubOnComplete := decide (consumerGroup = "")
  let consumerGroup := if deleteSubOnComplete then stamp else consumerGroup
  topic.ID ++ "." ++ consumerGroup

/-- Go `Topic.Subscribe`.  `stamp` is `time.Now().Format(...)` of line 89 and
`msgs` are the messages the bus delivers before `sub.Receive` stops. -/
def Topic.Subscribe (bus : Bus) (Decode : List Nat → Snapshot × Option String)
    (t : Topic) (consumerGroup : String) (stamp : String)
    (fn : Snapshot → Option String → Unit) (msgs : List Message) : Subscribed :=
  match t.pubSub with
  | none => { err := some "Topic has no project ID", calls := [], deliveries := [] }
  | some topic =>
    let deleteSubOnComplete := decide (consumerGroup = "")
    let subName := subscriptionName topic consumerGroup stamp
    match bus.newClient t.ProjectID with
    | some err => { err := some err, calls := [.newClient t.ProjectID], deliveries := [] }
    | none =>
      let setup : Option String × List BusCall :=
        match bus.subscriptionExists subName with
        | .error err => (some err, [])
        | .ok true => (none, [])
        | .ok false => (bus.createSubscription subName, [.createSubscription subName 20])
      match setup with
      | (some err, made) =>
        { err := some err,
          calls := [.newClient t.ProjectID, .subscriptionExists subName] ++ made,
          deliveries := [] }
      | (none, made) =>
        let ds := msgs.map (onMessage Decode fn)
        let cleanup := if deleteSubOnComplete then [BusCall.deleteSubscription subName] else []
        { err := bus.receive,
          calls := [.newClient t.ProjectID, .subscriptionExists subName] ++ made ++
            [.receive subName] ++ ackCalls msgs ds ++ cleanup,
          deliveries := ds }

/-! ## Producer loop (`cmd/ea/main.go`) -/

/-- Go `config` of `cmd/ea`. -/
structure config where
  ProjectID : String
  TopicName : String
  RefreshPeriodInSeconds : Int
  MaxPublishPerSecond : Int
  ExitAfterXConsecutiveErr : Int
deriving DecidableEq, Repr

/-- The configuration `main` runs with. -/
def mainConfig (projectID topicName : String) : config :=
  { ProjectID := projectID, TopicName := topicName, RefreshPeriodInSeconds := 15 * 60,
    MaxPublishPerSecond := 30, ExitAfterXConsecutiveErr := 3 }

/-- One turn of `updateLoop`: the error the update closure (lines 55-101)
returned, and whether `ctx.Done()` is ready at the `select` of line 115. -/
structure Cycle where
  err : Option String
  done : Bool
deriving DecidableEq, Repr

/-- How `run` left the loop: after the cycle numbered `cycle` (from 0), with
this return value. -/
structure Returned where
  cycle : Nat
  err : Option String
deriving DecidableEq, Repr

/-- Moves a report one cycle later. -/
def Returned.later (r : Returned) : Returned := { r with cycle := r.cycle + 1 }

/-- Lines 52-122 of `config.run`: the loop over the cycles `cycles`, entered
with `nConsecutiveErr = n`.  `none` when the loop is still going after the
last listed cycle. -/
def config.updateLoop (cfg : config) : Int → List Cycle → Option Returned
  | _, [] => none
  | n, c :: cs =>
    match c.err with
    | some err =>
      let n := n + 1
      if n ≥ cfg.ExitAfterXConsecutiveErr then some ⟨0, some err⟩
      else if c.done then some ⟨0, none⟩
      else (cfg.updateLoop n cs).map Returned.later
    | none =>
      if c.done then some ⟨0, none⟩
      else (cfg.updateLoop 0 cs).map Returned.later

/-- Go `config.run` from line 52 on. -/
def config.run (cfg : config) (cycles : List Cycle) : Option Returned :=
  cfg.updateLoop 0 cycles

/-! ## Sample data -/

/-- The table `cache.Init` builds for one section with calibrations at "A" and "B". -/
def routeAB : SnapRoute := initRoutes [⟨"sec", [⟨"A", 1⟩, ⟨"B", 2⟩]⟩]

/-- A snapshot with `DataURL=A, AliasURL=B, HumanURL=C`. -/
def snapABC : Snapshot :=
  { Station := ⟨"A", "B", "C", "", "", 0, 0, "", ""⟩, Readings := [],
    CorrelationID := "", CausationID := "", ProcessedTime := 0 }

/-- Whether the URL of a calibration entry equals the snapshot station's
DataURL, AliasURL or HumanURL. -/
def matchesStation (st : Station) (c : Calibration) : Bool :=
  decide (c.URL = st.DataURL) || decide (c.URL = st.AliasURL) || decide (c.URL = st.HumanURL)

/-- The last entry of the calibration list that matches the station, if any. -/
def lastMatch (calibrations : List Calibration) (st : Station) : Option Calibration :=
  (calibrations.filter (matchesStation st)).getLast?

/-- The measure index an iteration may write to: none for `done` and `idle`. -/
def touchedIndex (st : WriterState) : Event → Option Nat
  | .snap snap _ => some (resolvedIndex st snap)
  | _ => none

/-- A station known as "d" (data), "x" (alias) and "h" (human). -/
def stationX : Station := ⟨"d", "x", "h", "Bourton Dickler", "Dikler", 0, 0, "level", "metre"⟩

/-- A snapshot of `stationX` with one reading at instant 100. -/
def snapX : Snapshot :=
  { Station := stationX, Readings := [⟨100, 1⟩], CorrelationID := "ABCDE",
    CausationID := "FGHIJ", ProcessedTime := 7 }

/-- A later snapshot of `stationX` with one reading at instant 200. -/
def snapX2 : Snapshot :=
  { Station := stationX, Readings := [⟨200, 2⟩], CorrelationID := "KLMNO",
    CausationID := "PQRST", ProcessedTime := 9 }

/-- A record without measures yet. -/
def emptyRecord : Record := ⟨⟨"uuid-1", [⟨"d", 1⟩]⟩, []⟩

/-- The instant 2016-01-01T10:30:00Z of the tests: 63587241000 seconds after
Go's zero instant, in nanoseconds. -/
def instantTest : Int := 63587241000000000000

/-- Go `time.Hour`, in nanoseconds. -/
def hour : Int := 3600000000000

/-- A snapshot of `stationX` with one reading, taken one second after
`instantTest`. -/
def snapRecent : Snapshot :=
  { Station := stationX, Readings := [⟨instantTest + 1000000000, 1067282596⟩],
    CorrelationID := "ABCDE", CausationID := "FGHIJ", ProcessedTime := instantTest }

/-- A record that already holds what `snapRecent` carries. -/
def recordRecent : Record :=
  ⟨⟨"uuid-1", [⟨"d", 1⟩]⟩,
    [⟨stationX, ⟨"d", 1⟩, [⟨instantTest + 1000000000, 1067282596⟩], instantTest⟩]⟩

/-- A record that already holds what `snapX` carries. -/
def recordX : Record :=
  ⟨⟨"uuid-1", [⟨"d", 1⟩]⟩, [⟨stationX, ⟨"d", 1⟩, [⟨100, 1⟩], 7⟩]⟩

/-- A section with a calibration at "d" and one whose URL is empty. -/
def sectionBlankURL : Section := ⟨"uuid-1", [⟨"d", 1⟩, ⟨"", 2⟩]⟩

/-- A record of `sectionBlankURL` without measures yet. -/
def recordBlankURL : Record := ⟨sectionBlankURL, []⟩

/-- A snapshot whose DataURL is "d" and whose HumanURL is empty. -/
def snapNoHuman : Snapshot :=
  { Station := ⟨"d", "x", "", "", "", 0, 0, "", ""⟩, Readings := [⟨100, 1⟩],
    CorrelationID := "", CausationID := "", ProcessedTime := 7 }

/-- The first reading of a list taken at instant `t`. -/
def readingAt (t : Int) (l : List Reading) : Option Reading :=
  l.find? (fun r => decide (r.EventTime = t))

/-- Readings in strictly ascending order of `EventTime`. -/
def Ascending (l : List Reading) : Prop :=
  l.Pairwise (fun a b => a.EventTime < b.EventTime)

/-- The helpers as the specification describes `merge` and `removeOlderThan`,
over any checksum function. -/
def helpersWith {χ : Type} (Checksum : Measure → χ) : Helpers χ :=
  { Checksum := Checksum, merge := merge, removeOlderThan := removeOlderThan }

/-- Whether cycle `i` of `cycles` ended in an error. -/
def failed (cycles : List Cycle) (i : Nat) : Bool :=
  match cycles[i]? with
  | some c => c.err.isSome
  | none => false

/-- The number of consecutive failed cycles ending with cycle `i`, when `n`
failures in a row came before cycle 0: a successful cycle makes it zero. -/
def consecutiveErrFrom (n : Nat) (cycles : List Cycle) : Nat → Nat
  | 0 => if failed cycles 0 then n + 1 else 0
  | i + 1 => if failed cycles (i + 1) then consecutiveErrFrom n cycles i + 1 else 0

/-- The number of consecutive failed cycles ending with cycle `i`. -/
def consecutiveErr (cycles : List Cycle) (i : Nat) : Nat :=
  consecutiveErrFrom 0 cycles i

/-- A decoder for the samples: an empty payload does not decode. -/
def decodeSample (data : List Nat) : Snapshot × Option String :=
  if data = [] then (default, some "EOF") else (snapX, none)

/-- An encoder for the samples: a snapshot without readings does not encode. -/
def encodeSample (s : Snapshot) : Except String (List Nat) :=
  if s.Readings = [] then .error "no readings" else .ok [s.Readings.length]

/-- A bus on which every call succeeds and nothing exists yet. -/
def busOK : Bus :=
  { newClient := fun _ => none, topicExists := fun _ => .ok false,
    createTopic := fun _ => none, publishGet := fun _ => none,
    subscriptionExists := fun _ => .ok false, createSubscription := fun _ => none,
    receive := none }

/-- A topic opened with a project ID. -/
def topicLive : Topic := { ProjectID := "proj", pubSub := some ⟨"gauge"⟩ }

/-- The topic `New` returns for a blank project ID. -/
def topicBlank : Topic := { ProjectID := "", pubSub := none }

/-- Every entry of the identity index points at a measure of the record whose
station carries the entry's AliasURL. -/
def IndexInvariant (st : WriterState) : Prop :=
  ∀ p ∈ st.aliasURLToIndex,
    ∃ m, st.record.Measures[p.2]? = some m ∧ m.Station.AliasURL = p.1

/-! ## Publish interval (`config.durationBetweenPublish`) -/

/-- The value a Go `int` (64 bits, two's complement) holds after an operation
whose mathematical result is `x`. -/
def wrap64 (x : Int) : Int :=
  (x + 9223372036854775808) % 18446744073709551616 - 9223372036854775808

/-- Go `time.Millisecond`, in nanoseconds. -/
def millisecond : Int := 1000000

/-- Go `config.durationBetweenPublish`: the `time.Duration` returned, in
nanoseconds; `none` when the integer division by `total` panics (division by
zero).  Go's `/` on integers truncates toward zero. -/
def config.durationBetweenPublish (cfg : config) (total : Int) : Option Int :=
  if total = 0 then none
  else
    let ms := wrap64 (Int.tdiv (wrap64 (cfg.RefreshPeriodInSeconds * 1000)) total)
    let min := if cfg.MaxPublishPerSecond > 0 then Int.tdiv 1000 cfg.MaxPublishPerSecond else 1
    let ms := if ms < min then min else ms
    some (wrap64 (millisecond * ms))

/-- Go `time.NewTicker(d)`: whether it accepts the interval (it panics on a
non-positive one; so does it at lines 72-73 when no duration was returned). -/
def newTickerAccepts (d : Option Int) : Bool :=
  match d with
  | some d => decide (0 < d)
  | none => false

/-! ## Wire codec (`gauge.Snapshot.Encode`, `gauge.Snapshot.Decode`)

The bodies of the codec are not among the sources, only its tests and its
callers are.  This section models it from the specification: fields are
written in declaration order, "string fields are length-prefixed", "numeric
fields (`Lat`, `Lg`, `Value`) are encoded as 32-bit floats", instants are
"truncated to whole seconds", a "truncated or malformed input" is an error,
and "unknown trailing fields are ignored".  The wire is a list of octets;
integers are written low octet first. -/

/-- Nanoseconds in a second. -/
def second : Int := 1000000000

/-- The whole seconds of an instant (what `time.Time.Unix` counts, up to the
constant offset of the epoch). -/
def wholeSeconds (t : Int) : Int := t / second

/-- The instant with its sub-second part dropped. -/
def truncateToSecond (t : Int) : Int := wholeSeconds t * second

/-- Modelled from the spec: the `width` octets of the unsigned integer `n`,
low octet first. -/
def encodeUInt : Nat → Nat → List Nat
  | 0, _ => []
  | width + 1, n => n % 256 :: encodeUInt width (n / 256)

/-- Modelled from the spec: reads an unsigned integer of `width` octets off the
front of the wire; an error when the wire is too short. -/
def decodeUInt : Nat → List Nat → Except String (Nat × List Nat)
  | 0, rest => .ok (0, rest)
  | _ + 1, [] => .error "unexpected end of input"
  | width + 1, octet :: rest =>
    match decodeUInt width rest with
    | .error err => .error err
    | .ok (n, rest) => .ok (octet + 256 * n, rest)

/-- Modelled from the spec: reads `count` items off the front of the wire, one
after the other. -/
def decodeList {α : Type} (item : List Nat → Except String (α × List Nat)) :
    Nat → List Nat → Except String (List α × List Nat)
  | 0, rest => .ok ([], rest)
  | count + 1, data =>
    match item data with
    | .error err => .error err
    | .ok (x, rest) =>
      match decodeList item count rest with
      | .error err => .error err
      | .ok (xs, rest) => .ok (x :: xs, rest)

/-- Modelled from the spec: a character, as the four octets of its code point. -/
def encodeChar (c : Char) : List Nat := encodeUInt 4 c.toNat

/-- Modelled from the spec: reads one character. -/
def decodeChar (data : List Nat) : Except String (Char × List Nat) :=
  match decodeUInt 4 data with
  | .error err => .error err
  | .ok (n, rest) => .ok (Char.ofNat n, rest)

/-- Modelled from the spec: a string field, its length in four octets, then
its characters. -/
def encodeString (s : String) : List Nat :=
  encodeUInt 4 s.length ++ s.data.flatMap encodeChar

/-- Modelled from the spec: reads a length-prefixed string. -/
def decodeString (data : List Nat) : Except String (String × List Nat) :=
  match decodeUInt 4 data with
  | .error err => .error err
  | .ok (n, rest) =>
    match decodeList decodeChar n rest with
    | .error err => .error err
    | .ok (cs, rest) => .ok (String.mk cs, rest)

/-- Modelled from the spec: a 32-bit float, the four octets of its bit pattern. -/
def encodeFloat32 (x : Float32) : List Nat := encodeUInt 4 x

/-- Modelled from the spec: reads a 32-bit float. -/
def decodeFloat32 (data : List Nat) : Except String (Float32 × List Nat) :=
  decodeUInt 4 data

/-- Modelled from the spec: an instant, its whole seconds in eight octets. -/
def encodeTime (t : Int) : List Nat := encodeUInt 8 (wholeSeconds t).toNat

/-- Modelled from the spec: reads an instant, a whole number of seconds. -/
def decodeTime (data : List Nat) : Except String (Int × List Nat) :=
  match decodeUInt 8 data with
  | .error err => .error err
  | .ok (n, rest) => .ok ((n : Int) * second, rest)

/-- Modelled from the spec: the fields of a Station, in declaration order. -/
def encodeStation (st : Station) : List Nat :=
  encodeString st.DataURL ++ encodeString st.AliasURL ++ encodeString st.HumanURL ++
    encodeString st.Name ++ encodeString st.RiverName ++ encodeFloat32 st.Lat ++
    encodeFloat32 st.Lg ++ encodeString st.Type_ ++ encodeString st.Unit

/-- Modelled from the spec: reads a Station. -/
def decodeStation (data : List Nat) : Except String (Station × List Nat) := do
  let (dataURL, data) ← decodeString data
  let (aliasURL, data) ← decodeString data
  let (humanURL, data) ← decodeString data
  let (name, data) ← decodeString data
  let (riverName, data) ← decodeString data
  let (lat, data) ← decodeFloat32 data
  let (lg, data) ← decodeFloat32 data
  let (type, data) ← decodeString data
  let (unit, data) ← decodeString data
  pure (⟨dataURL, aliasURL, humanURL, name, riverName, lat, lg, type, unit⟩, data)

/-- Modelled from the spec: a Reading, its instant and its value. -/
def encodeReading (r : Reading) : List Nat :=
  encodeTime r.EventTime ++ encodeFloat32 r.Value

/-- Modelled from the spec: reads a Reading. -/
def decodeReading (data : List Nat) : Except String (Reading × List Nat) := do
  let (eventTime, data) ← decodeTime data
  let (value, data) ← decodeFloat32 data
  pure (⟨eventTime, value⟩, data)

/-- Modelled from the spec: the octets of a Snapshot: the Station, the number
of Readings in four octets and the Readings in order, the two trace IDs, the
ProcessedTime. -/
def encodeSnapshot (s : Snapshot) : List Nat :=
  encodeStation s.Station ++ encodeUInt 4 s.Readings.length ++
    s.Readings.flatMap encodeReading ++ encodeString s.CorrelationID ++
    encodeString s.CausationID ++ encodeTime s.ProcessedTime

/-- Modelled from the spec: reads a Snapshot; what follows it on the wire is
returned unread. -/
def decodeSnapshot (data : List Nat) : Except String (Snapshot × List Nat) := do
  let (station, data) ← decodeStation data
  let (count, data) ← decodeUInt 4 data
  let (readings, data) ← decodeList decodeReading count data
  let (correlationID, data) ← decodeString data
  let (causationID, data) ← decodeString data
  let (processedTime, data) ← decodeTime data
  pure (⟨station, readings, correlationID, causationID, processedTime⟩, data)

/-- Whether an instant fits the wire: not before the zero instant, whole
seconds below 2^64. -/
def timeFits (t : Int) : Bool :=
  decide (0 ≤ t) && decide (wholeSeconds t < 18446744073709551616)

/-- Whether a string fits the wire: its length below 2^32. -/
def stringFits (s : String) : Bool := decide (s.length < 4294967296)

/-- Whether a value is the bit pattern of a 32-bit float. -/
def float32Fits (x : Float32) : Bool := decide (x < 4294967296)

/-- Whether a Station fits the wire. -/
def Station.valid (st : Station) : Bool :=
  stringFits st.DataURL && stringFits st.AliasURL && stringFits st.HumanURL &&
    stringFits st.Name && stringFits st.RiverName && float32Fits st.Lat &&
    float32Fits st.Lg && stringFits st.Type_ && stringFits st.Unit

/-- Whether a Reading fits the wire. -/
def Reading.valid (r : Reading) : Bool := timeFits r.EventTime && float32Fits r.Value

/-- A valid Snapshot: every field fits the wire. -/
def Snapshot.valid (s : Snapshot) : Bool :=
  s.Station.valid && decide (s.Readings.length < 4294967296) &&
    s.Readings.all Reading.valid && stringFits s.CorrelationID &&
    stringFits s.CausationID && timeFits s.ProcessedTime

/-- Modelled from the spec: `gauge.Snapshot.Encode`, whose body is not among
the sources: the octets written, or an error for a Snapshot that does not fit
the wire. -/
def Snapshot.Encode (s : Snapshot) : Except String (List Nat) :=
  if s.valid then .ok (encodeSnapshot s) else .error "snapshot does not fit the wire format"

/-- Modelled from the spec: `gauge.Snapshot.Decode`, whose body is not among
the sources: the Snapshot decoded into and the error; trailing octets are
ignored. -/
def Snapshot.Decode (data : List Nat) : Snapshot × Option String :=
  match decodeSnapshot data with
  | .ok (s, _) => (s, none)
  | .error err => (default, some err)

/-- The Snapshot of `internal/gauge/serialize_test.go`, instants counted from
the first reading's minute and carrying a sub-second part. -/
def snapTest : Snapshot :=
  { Station := ⟨"http://environment.data.gov.uk/flood-monitoring/id/measures/1029TH",
      "rloi://1234", "http://environment.data.gov.uk/flood-monitoring/id/stations/1029TH",
      "Bourton Dickler", "Dikler", 1112502210, 3219055875, "level", "metre"⟩,
    Readings := [⟨1000000000, 1067282596⟩, ⟨10500000000, 1083304837⟩],
    CorrelationID := "ABCDE", CausationID := "FGHIJ", ProcessedTime := 250 }

/-- The Snapshot with every instant cut to whole seconds. -/
def Snapshot.truncated (s : Snapshot) : Snapshot :=
  { s with
    Readings := s.Readings.map (fun r => ⟨truncateToSecond r.EventTime, r.Value⟩),
    ProcessedTime := truncateToSecond s.ProcessedTime }

/-! ## Routing: proofs -/

theorem count_sendsFor (route : SnapRoute) (L : Chan) (order : List String) :
    (sendsFor route order).count L = (order.map (fun u => (route.at u).count L)).sum := by
  induction order with
  | nil => simp [sendsFor]
  | cons u us ih =>
    have hu : (match route.lookup u with | some chs => chs | none => []) = route.at u := by
      unfold SnapRoute.at
      cases route.lookup u <;> rfl
    unfold sendsFor at ih ⊢
    rw [List.flatMap_cons, List.count_append, ih, hu]
    simp

theorem count_sendsFor_perm (route : SnapRoute) (L : Chan) {order urls : List String}
    (hperm : order.Perm urls) :
    (sendsFor route order).count L = (urls.map (fun u => (route.at u).count L)).sum := by
  rw [count_sendsFor]
  exact (hperm.map _).sum_eq

theorem two_terms_le_sum (f : String → Nat) {a b : String} {l : List String}
    (ha : a ∈ l) (hb : b ∈ l) (hab : a ≠ b) : f a + f b ≤ (l.map f).sum := by
  have h1 : l.Perm (a :: l.erase a) := List.perm_cons_erase ha
  have hb1 : b ∈ l.erase a := (List.mem_erase_of_ne (Ne.symm hab)).mpr hb
  have h2 : (l.erase a).Perm (b :: (l.erase a).erase b) := List.perm_cons_erase hb1
  have h3 : l.Perm (a :: b :: (l.erase a).erase b) := h1.trans (h2.cons a)
  rw [(h3.map f).sum_eq]
  simp only [List.map_cons, List.sum_cons]
  omega

theorem mem_routeURLs (s : Snapshot) :
    s.Station.DataURL ∈ routeURLs s ∧ s.Station.AliasURL ∈ routeURLs s ∧
      s.Station.HumanURL ∈ routeURLs s := by
  simp [routeURLs, List.mem_dedup]

/-- C1, as stated, fails: the section channel 0 is registered by `cache.Init`
under both "A" and "B", and the snapshot with `DataURL=A, AliasURL=B,
HumanURL=C` is sent to it twice, in whichever order the map is walked. -/
theorem SnapshotRouter_sends_twice :
    (0 : Chan) ∈ routeAB.at "A" ∧ (0 : Chan) ∈ routeAB.at "B" ∧
    snapABC.Station.DataURL ≠ snapABC.Station.AliasURL ∧
    ∀ order : List String, order.Perm (routeURLs snapABC) →
      (SnapshotRouter routeAB none snapABC order).sent.count 0 = 2 := by
  refine ⟨by decide, by decide, by decide, ?_⟩
  intro order hperm
  show (sendsFor routeAB order).count 0 = 2
  rw [count_sendsFor_perm routeAB 0 hperm]
  decide

/-- C1 (amended): `SnapshotRouter` sends the snapshot to a listener `L` once
for every registration of `L` under each distinct URL among the snapshot's
DataURL, AliasURL and HumanURL, whatever the order the URL set is walked in:
duplicates are removed between URLs, not between listeners, so a listener
registered under both the DataURL and a different AliasURL is sent the
snapshot at least twice. -/
theorem SnapshotRouter_sends_per_url (route : SnapRoute) (s : Snapshot) (L : Chan)
    (order : List String) (hperm : order.Perm (routeURLs s)) :
    (SnapshotRouter route none s order).sent.count L
        = ((routeURLs s).map (fun u => (route.at u).count L)).sum ∧
    (s.Station.DataURL ≠ s.Station.AliasURL → L ∈ route.at s.Station.DataURL →
      L ∈ route.at s.Station.AliasURL →
      2 ≤ (SnapshotRouter route none s order).sent.count L) := by
  have hcount : (SnapshotRouter route none s order).sent.count L
      = ((routeURLs s).map (fun u => (route.at u).count L)).sum :=
    count_sendsFor_perm route L hperm
  refine ⟨hcount, ?_⟩
  intro hne hA hB
  rw [hcount]
  have h := two_terms_le_sum (fun u => (route.at u).count L)
    (mem_routeURLs s).1 (mem_routeURLs s).2.1 hne
  have h1 : 0 < (route.at s.Station.DataURL).count L := List.count_pos_iff.mpr hA
  have h2 : 0 < (route.at s.Station.AliasURL).count L := List.count_pos_iff.mpr hB
  simp only at h
  omega

/-- C1 (amended) at the table of one section with calibrations at "A" and "B". -/
theorem SnapshotRouter_sends_per_url_witness :
    (routeURLs snapABC).Perm (routeURLs snapABC) ∧
    (SnapshotRouter routeAB none snapABC (routeURLs snapABC)).sent.count 0
        = ((routeURLs snapABC).map (fun u => (routeAB.at u).count 0)).sum ∧
    (snapABC.Station.DataURL ≠ snapABC.Station.AliasURL → 0 ∈ routeAB.at snapABC.Station.DataURL →
      0 ∈ routeAB.at snapABC.Station.AliasURL →
      2 ≤ (SnapshotRouter routeAB none snapABC (routeURLs snapABC)).sent.count 0) :=
  ⟨List.Perm.refl _,
    SnapshotRouter_sends_per_url routeAB snapABC 0 (routeURLs snapABC) (List.Perm.refl _)⟩

/-! ## Merge loop: calibration choice and identity resolution -/

theorem selectCalibration_append (cals : List Calibration) (c : Calibration) (st : Station) :
    selectCalibration (cals ++ [c]) st
      = if matchesStation st c then c else selectCalibration cals st := by
  unfold selectCalibration
  rw [List.foldl_append]
  simp only [List.foldl_cons, List.foldl_nil, matchesStation]
  by_cases h1 : c.URL = st.DataURL <;> by_cases h2 : c.URL = st.AliasURL <;>
    by_cases h3 : c.URL = st.HumanURL <;> simp [h1, h2, h3]

theorem selectCalibration_eq (cals : List Calibration) (st : Station) :
    selectCalibration cals st = (lastMatch cals st).getD default := by
  induction cals using List.reverseRecOn with
  | nil => rfl
  | append_singleton cs c ih =>
    rw [selectCalibration_append]
    unfold lastMatch at ih ⊢
    rw [List.filter_append]
    by_cases hm : matchesStation st c
    · simp [hm, List.filter_cons]
    · simp [hm, List.filter_cons, ih]

theorem lastMatch_mem {cals : List Calibration} {st : Station} {c : Calibration}
    (h : lastMatch cals st = some c) : c ∈ cals ∧ matchesStation st c = true := by
  unfold lastMatch at h
  have := List.mem_of_getLast?_eq_some h
  simpa [List.mem_filter] using this

theorem lastMatch_isSome {cals : List Calibration} {st : Station} {c : Calibration}
    (hc : c ∈ cals) (hm : matchesStation st c = true) : ∃ c1, lastMatch cals st = some c1 := by
  unfold lastMatch
  have hmem : c ∈ cals.filter (matchesStation st) := List.mem_filter.mpr ⟨hc, hm⟩
  cases hl : (cals.filter (matchesStation st)).getLast? with
  | some c1 => exact ⟨c1, rfl⟩
  | none =>
    rw [List.getLast?_eq_none_iff] at hl
    rw [hl] at hmem
    cases hmem

theorem lastMatch_eq_none {cals : List Calibration} {st : Station}
    (h : lastMatch cals st = none) : ∀ c ∈ cals, matchesStation st c = false := by
  intro c hc
  cases hm : matchesStation st c with
  | false => rfl
  | true =>
    obtain ⟨c1, h1⟩ := lastMatch_isSome hc hm
    rw [h] at h1
    cases h1

/-- The measure appended for a first snapshot. -/
theorem resolve_new {cals : List Calibration} {st : WriterState} {snap : Snapshot}
    (hnew : st.aliasURLToIndex.lookup snap.Station.AliasURL = none)
    (hurl : (selectCalibration cals snap.Station).URL ≠ "") :
    resolve cals st snap = .ok (st.record.Measures.length,
      st.addMeasure (placeholder snap (selectCalibration cals snap.Station))) := by
  unfold resolve
  rw [hnew]
  simp [hurl]

theorem resolve_misrouted {cals : List Calibration} {st : WriterState} {snap : Snapshot}
    (hnew : st.aliasURLToIndex.lookup snap.Station.AliasURL = none)
    (hurl : (selectCalibration cals snap.Station).URL = "") :
    resolve cals st snap = .error (misroutedError st.record snap) := by
  unfold resolve
  rw [hnew]
  simp [hurl]

theorem resolve_known {cals : List Calibration} {st : WriterState} {snap : Snapshot} {i : Nat}
    (hknown : st.aliasURLToIndex.lookup snap.Station.AliasURL = some i) :
    resolve cals st snap = .ok (i, st) := by
  unfold resolve
  rw [hknown]

/-- The shape of `resolve`: it fails, or keeps the state at a known index, or
appends one placeholder at the end and registers its index. -/
theorem resolve_cases (cals : List Calibration) (st : WriterState) (snap : Snapshot) :
    (resolve cals st snap = .error (misroutedError st.record snap) ∧
        st.aliasURLToIndex.lookup snap.Station.AliasURL = none ∧
        (selectCalibration cals snap.Station).URL = "") ∨
    (∃ i, st.aliasURLToIndex.lookup snap.Station.AliasURL = some i ∧
        resolve cals st snap = .ok (i, st)) ∨
    (st.aliasURLToIndex.lookup snap.Station.AliasURL = none ∧
      (selectCalibration cals snap.Station).URL ≠ "" ∧
      resolve cals st snap = .ok (st.record.Measures.length,
        st.addMeasure (placeholder snap (selectCalibration cals snap.Station)))) := by
  cases hl : st.aliasURLToIndex.lookup snap.Station.AliasURL with
  | some i => exact Or.inr (Or.inl ⟨i, rfl, resolve_known hl⟩)
  | none =>
    by_cases hurl : (selectCalibration cals snap.Station).URL = ""
    · exact Or.inl ⟨resolve_misrouted hl hurl, rfl, hurl⟩
    · exact Or.inr (Or.inr ⟨rfl, hurl, resolve_new hl hurl⟩)

/-- C2: for a snapshot whose AliasURL is not in the identity index, the
calibration `CreateSnapshotsWriter` keeps after its search loop is the last
entry of the calibration list whose URL equals the snapshot's DataURL,
AliasURL or HumanURL (the zero value when no entry does), and the measure it
appends carries exactly that entry. -/
theorem selectCalibration_last_match (cals : List Calibration) (st : WriterState)
    (snap : Snapshot) (hnew : st.aliasURLToIndex.lookup snap.Station.AliasURL = none) :
    selectCalibration cals snap.Station = (lastMatch cals snap.Station).getD default ∧
    (∀ c, lastMatch cals snap.Station = some c →
      selectCalibration cals snap.Station = c ∧ c ∈ cals ∧
      (c.URL = snap.Station.DataURL ∨ c.URL = snap.Station.AliasURL ∨
        c.URL = snap.Station.HumanURL)) ∧
    (∀ index st1, resolve cals st snap = .ok (index, st1) →
      ∃ c, lastMatch cals snap.Station = some c ∧
        st1.record.Measures[index]? = some (placeholder snap c)) := by
  refine ⟨selectCalibration_eq cals snap.Station, ?_, ?_⟩
  · intro c hc
    have hm := lastMatch_mem hc
    refine ⟨by rw [selectCalibration_eq, hc]; rfl, hm.1, ?_⟩
    simpa [matchesStation, or_assoc] using hm.2
  · intro index st1 hres
    rcases resolve_cases cals st snap with ⟨he, _, _⟩ | ⟨i, hi, _⟩ | ⟨_, hurl, hok⟩
    · rw [he] at hres; cases hres
    · rw [hnew] at hi; cases hi
    · rw [hok] at hres
      injection hres with hres
      injection hres with h1 h2
      subst h1; subst h2
      cases hl : lastMatch cals snap.Station with
      | none =>
        exfalso
        apply hurl
        rw [selectCalibration_eq, hl]
        rfl
      | some c =>
        refine ⟨c, rfl, ?_⟩
        have hsel : selectCalibration cals snap.Station = c := by
          rw [selectCalibration_eq, hl]; rfl
        simp [hsel, WriterState.addMeasure]

/-- C2 at a first snapshot of station "x" with calibrations at "d" and "h". -/
theorem selectCalibration_last_match_witness :
    (initWriter emptyRecord).aliasURLToIndex.lookup snapX.Station.AliasURL = none ∧
    selectCalibration [⟨"d", 1⟩, ⟨"h", 2⟩] snapX.Station
      = (lastMatch [⟨"d", 1⟩, ⟨"h", 2⟩] snapX.Station).getD default :=
  ⟨by decide,
    (selectCalibration_last_match [⟨"d", 1⟩, ⟨"h", 2⟩] (initWriter emptyRecord) snapX
      (by decide)).1⟩

/-! ## Merge loop: one iteration -/

theorem mergeAt_unchanged {χ : Type} [DecidableEq χ] (h : Helpers χ) {st : WriterState}
    {index : Nat} {m0 : Measure} (snap : Snapshot) (now : Int)
    (hm : st.record.Measures[index]? = some m0)
    (hck : h.Checksum m0 = h.Checksum (mergedMeasure h m0 snap now)) :
    mergeAt h st index snap now
      = { state := st, exit := .next, stored := none, actions := [] } := by
  unfold mergeAt
  rw [hm]
  simp [hck]

theorem mergeAt_changed {χ : Type} [DecidableEq χ] (h : Helpers χ) {st : WriterState}
    {index : Nat} {m0 : Measure} (snap : Snapshot) (now : Int)
    (hm : st.record.Measures[index]? = some m0)
    (hck : h.Checksum m0 ≠ h.Checksum (mergedMeasure h m0 snap now)) :
    mergeAt h st index snap now
      = { state := st.withMeasure index (acceptedMeasure h m0 snap now),
          exit := .next,
          stored := some (st.record.setMeasure index (acceptedMeasure h m0 snap now)),
          actions := [] } := by
  unfold mergeAt
  rw [hm]
  simp [hck]

theorem mergeAt_outOfRange {χ : Type} [DecidableEq χ] (h : Helpers χ) {st : WriterState}
    {index : Nat} (snap : Snapshot) (now : Int)
    (hm : st.record.Measures[index]? = none) :
    mergeAt h st index snap now
      = { state := st, exit := .outOfRange, stored := none, actions := [] } := by
  unfold mergeAt
  rw [hm]

theorem mergeAt_exit {χ : Type} [DecidableEq χ] (h : Helpers χ) (st : WriterState)
    (index : Nat) (snap : Snapshot) (now : Int) (e : Option String) :
    (mergeAt h st index snap now).exit ≠ .returned e := by
  cases hm : st.record.Measures[index]? with
  | none => rw [mergeAt_outOfRange h snap now hm]; simp
  | some m0 =>
    by_cases hck : h.Checksum m0 = h.Checksum (mergedMeasure h m0 snap now)
    · rw [mergeAt_unchanged h snap now hm hck]; simp
    · rw [mergeAt_changed h snap now hm hck]; simp

theorem step_snap_ok {χ : Type} [DecidableEq χ] (h : Helpers χ) {cals : List Calibration}
    {st st1 : WriterState} {snap : Snapshot} {index : Nat} (now : Int)
    (hres : resolve cals st snap = .ok (index, st1)) :
    nextSnapshot h cals st (.snap snap now) = mergeAt h st1 index snap now := by
  simp only [nextSnapshot, hres]

theorem step_snap_error {χ : Type} [DecidableEq χ] (h : Helpers χ) {cals : List Calibration}
    {st : WriterState} {snap : Snapshot} {msg : String} (now : Int)
    (hres : resolve cals st snap = .error msg) :
    nextSnapshot h cals st (.snap snap now)
      = { state := st, exit := .returned (some msg), stored := none, actions := [] } := by
  simp only [nextSnapshot, hres]

theorem misroutedError_text (record : Record) (snap : Snapshot) :
    misroutedError record snap
      = "incorrectly routed snapshot: " ++ record.Section.UUID ++ " with snap "
          ++ snap.Station.AliasURL := by
  unfold misroutedError
  simp only [String.append_assoc]

theorem selectCalibration_url_empty_iff (cals : List Calibration) (st : Station) :
    (selectCalibration cals st).URL = "" ↔ ∀ c, lastMatch cals st = some c → c.URL = "" := by
  rw [selectCalibration_eq]
  cases hl : lastMatch cals st with
  | none => simp; rfl
  | some c => simp

/-- C3, as stated, fails: the calibration list has an entry whose URL equals
the snapshot's DataURL "d", the AliasURL "x" is not in the index, and yet the
task fails with the misrouted-snapshot error, because the last matching entry
is the one with the empty URL (it equals the empty HumanURL). -/
theorem step_misrouted_despite_match :
    (initWriter recordBlankURL).aliasURLToIndex.lookup snapNoHuman.Station.AliasURL = none ∧
    (∃ c ∈ sectionBlankURL.Measures, c.URL = snapNoHuman.Station.DataURL) ∧
    (nextSnapshot specHelpers sectionBlankURL.Measures (initWriter recordBlankURL)
        (.snap snapNoHuman 500)).exit
      = .returned (some "incorrectly routed snapshot: uuid-1 with snap x") := by
  refine ⟨by decide, ⟨⟨"d", 1⟩, by decide, by decide⟩, by decide⟩

/-- C3 (amended): for every snapshot whose AliasURL is not in the identity
index, the merge task fails if and only if no calibration entry's URL equals
the snapshot's DataURL, AliasURL or HumanURL, or the last such entry of the
list has an empty URL; the error text is "incorrectly routed snapshot: " +
record section UUID + " with snap " + snapshot AliasURL, and on that failure
the record (its Measures included) and the identity index are left exactly as
they were and nothing is stored. -/
theorem step_misrouted_iff {χ : Type} [DecidableEq χ] (h : Helpers χ)
    (cals : List Calibration) (st : WriterState) (snap : Snapshot) (now : Int)
    (hnew : st.aliasURLToIndex.lookup snap.Station.AliasURL = none) :
    ((∃ e, (nextSnapshot h cals st (.snap snap now)).exit = .returned e) ↔
      ∀ c, lastMatch cals snap.Station = some c → c.URL = "") ∧
    (∀ e, (nextSnapshot h cals st (.snap snap now)).exit = .returned e →
      e = some ("incorrectly routed snapshot: " ++ st.record.Section.UUID ++ " with snap "
            ++ snap.Station.AliasURL) ∧
      (nextSnapshot h cals st (.snap snap now)).state = st ∧
      (nextSnapshot h cals st (.snap snap now)).stored = none) := by
  rcases resolve_cases cals st snap with ⟨he, _, hurl⟩ | ⟨i, hi, _⟩ | ⟨_, hurl, hok⟩
  · rw [step_snap_error h now he]
    refine ⟨⟨fun _ => (selectCalibration_url_empty_iff cals snap.Station).mp hurl,
      fun _ => ⟨_, rfl⟩⟩, ?_⟩
    intro e he1
    refine ⟨?_, rfl, rfl⟩
    rw [← misroutedError_text]
    injection he1 with he1
    exact he1.symm
  · rw [hnew] at hi; cases hi
  · rw [step_snap_ok h now hok]
    refine ⟨⟨fun ⟨e, he⟩ => absurd he (mergeAt_exit h _ _ snap now e),
      fun hall => absurd ((selectCalibration_url_empty_iff cals snap.Station).mpr hall) hurl⟩, ?_⟩
    intro e he
    exact absurd he (mergeAt_exit h _ _ snap now e)

/-- C3 (amended) at a first snapshot that no calibration matches. -/
theorem step_misrouted_iff_witness :
    (initWriter emptyRecord).aliasURLToIndex.lookup snapX.Station.AliasURL = none ∧
    ((∃ e, (nextSnapshot specHelpers [⟨"other", 1⟩] (initWriter emptyRecord) (.snap snapX 500)).exit
        = .returned e) ↔
      ∀ c, lastMatch [⟨"other", 1⟩] snapX.Station = some c → c.URL = "") :=
  ⟨by decide,
    (step_misrouted_iff specHelpers [⟨"other", 1⟩] (initWriter emptyRecord) snapX 500
      (by decide)).1⟩

theorem mergeAt_length {χ : Type} [DecidableEq χ] (h : Helpers χ) (st : WriterState)
    (index : Nat) (snap : Snapshot) (now : Int) :
    (mergeAt h st index snap now).state.record.Measures.length = st.record.Measures.length := by
  cases hm : st.record.Measures[index]? with
  | none => rw [mergeAt_outOfRange h snap now hm]
  | some m0 =>
    by_cases hck : h.Checksum m0 = h.Checksum (mergedMeasure h m0 snap now)
    · rw [mergeAt_unchanged h snap now hm hck]
    · rw [mergeAt_changed h snap now hm hck]
      simp [WriterState.withMeasure, Record.setMeasure]

theorem mergeAt_aliasIndex {χ : Type} [DecidableEq χ] (h : Helpers χ) (st : WriterState)
    (index : Nat) (snap : Snapshot) (now : Int) :
    (mergeAt h st index snap now).state.aliasURLToIndex = st.aliasURLToIndex := by
  cases hm : st.record.Measures[index]? with
  | none => rw [mergeAt_outOfRange h snap now hm]
  | some m0 =>
    by_cases hck : h.Checksum m0 = h.Checksum (mergedMeasure h m0 snap now)
    · rw [mergeAt_unchanged h snap now hm hck]
    · rw [mergeAt_changed h snap now hm hck]
      rfl

theorem mergeAt_get_ne {χ : Type} [DecidableEq χ] (h : Helpers χ) (st : WriterState)
    (index : Nat) (snap : Snapshot) (now : Int) {i : Nat} (hi : i ≠ index) :
    (mergeAt h st index snap now).state.record.Measures[i]? = st.record.Measures[i]? := by
  cases hm : st.record.Measures[index]? with
  | none => rw [mergeAt_outOfRange h snap now hm]
  | some m0 =>
    by_cases hck : h.Checksum m0 = h.Checksum (mergedMeasure h m0 snap now)
    · rw [mergeAt_unchanged h snap now hm hck]
    · rw [mergeAt_changed h snap now hm hck]
      simp only [WriterState.withMeasure, Record.setMeasure]
      exact List.getElem?_set_ne (Ne.symm hi)

theorem mergeAt_get_eq {χ : Type} [DecidableEq χ] (h : Helpers χ) {st : WriterState}
    {index : Nat} {m0 : Measure} (snap : Snapshot) (now : Int)
    (hm : st.record.Measures[index]? = some m0) :
    (mergeAt h st index snap now).state.record.Measures[index]?
      = some (if h.Checksum m0 = h.Checksum (mergedMeasure h m0 snap now) then m0
              else acceptedMeasure h m0 snap now) := by
  by_cases hck : h.Checksum m0 = h.Checksum (mergedMeasure h m0 snap now)
  · rw [mergeAt_unchanged h snap now hm hck, if_pos hck, hm]
  · rw [mergeAt_changed h snap now hm hck, if_neg hck]
    simp only [WriterState.withMeasure, Record.setMeasure]
    have hlt : index < st.record.Measures.length := by
      rcases List.getElem?_eq_some_iff.mp hm with ⟨hlt, _⟩
      exact hlt
    rw [List.getElem?_set_self hlt]

theorem mergeAt_exit_next {χ : Type} [DecidableEq χ] (h : Helpers χ) {st : WriterState}
    {index : Nat} {m0 : Measure} (snap : Snapshot) (now : Int)
    (hm : st.record.Measures[index]? = some m0) :
    (mergeAt h st index snap now).exit = .next := by
  by_cases hck : h.Checksum m0 = h.Checksum (mergedMeasure h m0 snap now)
  · rw [mergeAt_unchanged h snap now hm hck]
  · rw [mergeAt_changed h snap now hm hck]

theorem acceptedMeasure_fields {χ : Type} (h : Helpers χ) (m : Measure) (snap : Snapshot)
    (now : Int) :
    (acceptedMeasure h m snap now).Readings
        = h.removeOlderThan (now - retention) (h.merge m.Readings snap.Readings) ∧
    (acceptedMeasure h m snap now).Station = snap.Station ∧
    (acceptedMeasure h m snap now).ProcessedTime = snap.ProcessedTime ∧
    (acceptedMeasure h m snap now).Calibration = m.Calibration :=
  ⟨rfl, rfl, rfl, rfl⟩

/-- C4, as stated, fails: the AliasURL "x" is unknown, the DataURL "d" equals
the URL of the first calibration, and yet no Measure is appended and nothing is
registered, because the calibration kept is the later entry with the empty
URL. -/
theorem step_first_snapshot_not_appended :
    (initWriter recordBlankURL).aliasURLToIndex.lookup snapNoHuman.Station.AliasURL = none ∧
    (⟨"d", 1⟩ : Calibration) ∈ sectionBlankURL.Measures ∧
    (⟨"d", 1⟩ : Calibration).URL = snapNoHuman.Station.DataURL ∧
    (nextSnapshot specHelpers sectionBlankURL.Measures (initWriter recordBlankURL)
        (.snap snapNoHuman 500)).state.record.Measures = [] ∧
    (nextSnapshot specHelpers sectionBlankURL.Measures (initWriter recordBlankURL)
        (.snap snapNoHuman 500)).state.aliasURLToIndex.lookup "x" = none := by
  refine ⟨by decide, by decide, by decide, by decide, by decide⟩

/-- C4 (amended): for every record and every snapshot whose AliasURL is unknown
to the identity index, whose DataURL equals a calibration's URL and for which
the last calibration entry matching one of its three URLs has a non-empty URL,
processing it appends exactly one new Measure (empty readings before merge,
that calibration, the snapshot's Station) and registers its index under the
snapshot's AliasURL; processing a second snapshot with the same AliasURL
resolves to that same index, leaves the number of Measures and every other
Measure unchanged, and the Measure at that index is the merged one when the
checksum changed and the old one otherwise. -/
theorem step_first_snapshot_appends {χ : Type} [DecidableEq χ] (h : Helpers χ)
    (cals : List Calibration) (st : WriterState) (snap snap2 : Snapshot) (now now2 : Int)
    (hnew : st.aliasURLToIndex.lookup snap.Station.AliasURL = none)
    (hdata : ∃ c ∈ cals, c.URL = snap.Station.DataURL)
    (hurl : ∀ c, lastMatch cals snap.Station = some c → c.URL ≠ "")
    (halias : snap2.Station.AliasURL = snap.Station.AliasURL) :
    lastMatch cals snap.Station = some (selectCalibration cals snap.Station) ∧
    resolve cals st snap = .ok (st.record.Measures.length,
      st.addMeasure (placeholder snap (selectCalibration cals snap.Station))) ∧
    (nextSnapshot h cals st (.snap snap now)).exit = .next ∧
    (nextSnapshot h cals st (.snap snap now)).state.record.Measures.length
      = st.record.Measures.length + 1 ∧
    (∀ i, i < st.record.Measures.length →
      (nextSnapshot h cals st (.snap snap now)).state.record.Measures[i]? = st.record.Measures[i]?) ∧
    (nextSnapshot h cals st (.snap snap now)).state.aliasURLToIndex.lookup snap.Station.AliasURL
      = some st.record.Measures.length ∧
    ∃ m1, (nextSnapshot h cals st (.snap snap now)).state.record.Measures[st.record.Measures.length]?
        = some m1 ∧
      m1.Calibration = selectCalibration cals snap.Station ∧ m1.Station = snap.Station ∧
      resolvedIndex (nextSnapshot h cals st (.snap snap now)).state snap2 = st.record.Measures.length ∧
      (nextSnapshot h cals (nextSnapshot h cals st (.snap snap now)).state (.snap snap2 now2)).exit = .next ∧
      (nextSnapshot h cals (nextSnapshot h cals st (.snap snap now)).state
          (.snap snap2 now2)).state.record.Measures.length = st.record.Measures.length + 1 ∧
      (∀ i, i ≠ st.record.Measures.length →
        (nextSnapshot h cals (nextSnapshot h cals st (.snap snap now)).state
            (.snap snap2 now2)).state.record.Measures[i]?
          = (nextSnapshot h cals st (.snap snap now)).state.record.Measures[i]?) ∧
      (nextSnapshot h cals (nextSnapshot h cals st (.snap snap now)).state
          (.snap snap2 now2)).state.record.Measures[st.record.Measures.length]?
        = some (if h.Checksum m1 = h.Checksum (mergedMeasure h m1 snap2 now2) then m1
                else acceptedMeasure h m1 snap2 now2) := by
  obtain ⟨c0, hc0, hc0url⟩ := hdata
  have hmatch : matchesStation snap.Station c0 = true := by simp [matchesStation, hc0url]
  obtain ⟨c1, hc1⟩ := lastMatch_isSome hc0 hmatch
  have hsel : selectCalibration cals snap.Station = c1 := by
    rw [selectCalibration_eq, hc1]; rfl
  have hne : (selectCalibration cals snap.Station).URL ≠ "" := by
    rw [hsel]; exact hurl c1 hc1
  have hres := resolve_new hnew hne
  have hstep := step_snap_ok h now hres
  -- the placeholder sits at the end of the list
  have hplace : (st.addMeasure (placeholder snap (selectCalibration cals
      snap.Station))).record.Measures[st.record.Measures.length]?
      = some (placeholder snap (selectCalibration cals snap.Station)) := by
    simp [WriterState.addMeasure]
  refine ⟨by rw [hsel]; exact hc1, hres, ?_, ?_, ?_, ?_, ?_⟩
  · rw [hstep]; exact mergeAt_exit_next h snap now hplace
  · rw [hstep, mergeAt_length]; simp [WriterState.addMeasure]
  · intro i hi
    rw [hstep, mergeAt_get_ne h _ _ snap now (Nat.ne_of_lt hi)]
    exact List.getElem?_append_left hi
  · rw [hstep, mergeAt_aliasIndex]; simp [WriterState.addMeasure, placeholder, List.lookup]
  · have hidx : (nextSnapshot h cals st (.snap snap now)).state.aliasURLToIndex.lookup
        snap2.Station.AliasURL = some st.record.Measures.length := by
      rw [hstep, mergeAt_aliasIndex, halias]
      simp [WriterState.addMeasure, placeholder, List.lookup]
    have hget := mergeAt_get_eq h snap now hplace
    rw [← hstep] at hget
    refine ⟨_, hget, ?_, ?_, ?_, ?_⟩
    · split <;> rfl
    · split <;> rfl
    · unfold resolvedIndex
      rw [hidx]; rfl
    · have hres2 : resolve cals (nextSnapshot h cals st (.snap snap now)).state snap2
          = .ok (st.record.Measures.length, (nextSnapshot h cals st (.snap snap now)).state) :=
        resolve_known hidx
      have hstep2 := step_snap_ok h now2 hres2
      rw [hstep2]
      refine ⟨mergeAt_exit_next h snap2 now2 hget, ?_, ?_, ?_⟩
      · rw [mergeAt_length, hstep, mergeAt_length]; simp [WriterState.addMeasure]
      · intro i hi
        exact mergeAt_get_ne h _ _ snap2 now2 hi
      · exact mergeAt_get_eq h snap2 now2 hget

/-- C4 (amended) at a first snapshot of station "x" with a calibration at "d". -/
theorem step_first_snapshot_appends_witness :
    (initWriter emptyRecord).aliasURLToIndex.lookup snapX.Station.AliasURL = none ∧
    (∃ c ∈ [(⟨"d", 1⟩ : Calibration)], c.URL = snapX.Station.DataURL) ∧
    (∀ c, lastMatch [⟨"d", 1⟩] snapX.Station = some c → c.URL ≠ "") ∧
    snapX2.Station.AliasURL = snapX.Station.AliasURL ∧
    (nextSnapshot specHelpers [⟨"d", 1⟩] (initWriter emptyRecord)
        (.snap snapX 500)).state.record.Measures.length = emptyRecord.Measures.length + 1 :=
  ⟨by decide, ⟨⟨"d", 1⟩, by decide, by decide⟩, by decide, by decide,
    (step_first_snapshot_appends specHelpers [⟨"d", 1⟩] (initWriter emptyRecord) snapX snapX2
      500 600 (by decide) ⟨⟨"d", 1⟩, by decide, by decide⟩ (by decide) (by decide)).2.2.2.1⟩

/-- C6: in one merge nextSnapshot for a resolved snapshot, `Writer.Store` is invoked if
and only if the measure's checksum after merge, retention and Station update
differs from its checksum before; when it differs the stored record is the
record the loop now holds, and its measure at the resolved index has the
merged-and-trimmed Readings, the snapshot's Station and the snapshot's
ProcessedTime (the Calibration is untouched); when it is equal, the state,
and so the measure held in the record, is left unchanged. -/
theorem step_stores_iff_checksum_differs {χ : Type} [DecidableEq χ] (h : Helpers χ)
    (cals : List Calibration) (st st1 : WriterState) (snap : Snapshot) (now : Int)
    (index : Nat) (m0 : Measure)
    (hres : resolve cals st snap = .ok (index, st1))
    (hm : st1.record.Measures[index]? = some m0) :
    ((nextSnapshot h cals st (.snap snap now)).stored.isSome = true ↔
      h.Checksum (mergedMeasure h m0 snap now) ≠ h.Checksum m0) ∧
    (mergedMeasure h m0 snap now).Readings
      = h.removeOlderThan (now - retention) (h.merge m0.Readings snap.Readings) ∧
    (mergedMeasure h m0 snap now).Station = snap.Station ∧
    (h.Checksum (mergedMeasure h m0 snap now) ≠ h.Checksum m0 →
      ∃ m, (nextSnapshot h cals st (.snap snap now)).stored
            = some (nextSnapshot h cals st (.snap snap now)).state.record ∧
        (nextSnapshot h cals st (.snap snap now)).state.record.Measures[index]? = some m ∧
        m.Readings = h.removeOlderThan (now - retention) (h.merge m0.Readings snap.Readings) ∧
        m.Station = snap.Station ∧ m.ProcessedTime = snap.ProcessedTime ∧
        m.Calibration = m0.Calibration) ∧
    (h.Checksum (mergedMeasure h m0 snap now) = h.Checksum m0 →
      (nextSnapshot h cals st (.snap snap now)).state = st1 ∧
      (nextSnapshot h cals st (.snap snap now)).state.record.Measures[index]? = some m0) := by
  rw [step_snap_ok h now hres]
  refine ⟨?_, rfl, rfl, ?_, ?_⟩
  · by_cases hck : h.Checksum m0 = h.Checksum (mergedMeasure h m0 snap now)
    · rw [mergeAt_unchanged h snap now hm hck]
      simp [hck]
    · rw [mergeAt_changed h snap now hm hck]
      simpa using fun heq => hck heq.symm
  · intro hck
    have hck1 : h.Checksum m0 ≠ h.Checksum (mergedMeasure h m0 snap now) :=
      fun heq => hck heq.symm
    have hget := mergeAt_get_eq h snap now hm
    rw [if_neg hck1] at hget
    refine ⟨acceptedMeasure h m0 snap now, ?_, hget, acceptedMeasure_fields h m0 snap now⟩
    rw [mergeAt_changed h snap now hm hck1]
    rfl
  · intro hck
    rw [mergeAt_unchanged h snap now hm hck.symm]
    exact ⟨rfl, hm⟩

/-- C6 at a record holding one measure and a snapshot with a new reading. -/
theorem step_stores_iff_checksum_differs_witness :
    resolve [⟨"d", 1⟩] (initWriter recordX) snapX2 = .ok (0, initWriter recordX) ∧
    (initWriter recordX).record.Measures[0]? = some ⟨stationX, ⟨"d", 1⟩, [⟨100, 1⟩], 7⟩ ∧
    ((nextSnapshot specHelpers [⟨"d", 1⟩] (initWriter recordX) (.snap snapX2 500)).stored.isSome = true ↔
      specHelpers.Checksum (mergedMeasure specHelpers ⟨stationX, ⟨"d", 1⟩, [⟨100, 1⟩], 7⟩
        snapX2 500) ≠ specHelpers.Checksum ⟨stationX, ⟨"d", 1⟩, [⟨100, 1⟩], 7⟩) :=
  ⟨rfl, by decide,
    (step_stores_iff_checksum_differs specHelpers [⟨"d", 1⟩] (initWriter recordX)
      (initWriter recordX) snapX2 500 0 ⟨stationX, ⟨"d", 1⟩, [⟨100, 1⟩], 7⟩
      rfl (by decide)).1⟩

/-! ## Merge loop: what an iteration leaves alone -/

theorem step_frame {χ : Type} [DecidableEq χ] (h : Helpers χ) (cals : List Calibration)
    (st : WriterState) (ev : Event) {i : Nat} {m : Measure}
    (hm : st.record.Measures[i]? = some m) :
    ∃ m1, (nextSnapshot h cals st ev).state.record.Measures[i]? = some m1 ∧
      m1.Calibration = m.Calibration ∧ (touchedIndex st ev ≠ some i → m1 = m) := by
  have hlt : i < st.record.Measures.length := (List.getElem?_eq_some_iff.mp hm).1
  cases ev with
  | done => exact ⟨m, hm, rfl, fun _ => rfl⟩
  | idle => exact ⟨m, hm, rfl, fun _ => rfl⟩
  | snap snap now =>
    rcases resolve_cases cals st snap with ⟨he, _, _⟩ | ⟨j, hj, hok⟩ | ⟨hnew, _, hok⟩
    · rw [step_snap_error h now he]
      exact ⟨m, hm, rfl, fun _ => rfl⟩
    · rw [step_snap_ok h now hok]
      have htouch : touchedIndex st (.snap snap now) = some j := by
        simp [touchedIndex, resolvedIndex, hj]
      by_cases hij : i = j
      · subst hij
        refine ⟨_, mergeAt_get_eq h snap now hm, ?_, fun hne => absurd htouch hne⟩
        split <;> rfl
      · refine ⟨m, ?_, rfl, fun _ => rfl⟩
        rw [mergeAt_get_ne h st j snap now hij, hm]
    · rw [step_snap_ok h now hok]
      refine ⟨m, ?_, rfl, fun _ => rfl⟩
      rw [mergeAt_get_ne h _ _ snap now (Nat.ne_of_lt hlt)]
      simp only [WriterState.addMeasure]
      rw [List.getElem?_append_left hlt, hm]

theorem runWriter_calibration {χ : Type} [DecidableEq χ] (h : Helpers χ)
    (cals : List Calibration) (events : List Event) :
    ∀ (st : WriterState) (i : Nat) (m : Measure), st.record.Measures[i]? = some m →
      ∃ m1, (runWriter h cals st events).record.Measures[i]? = some m1 ∧
        m1.Calibration = m.Calibration := by
  induction events with
  | nil => intro st i m hm; exact ⟨m, hm, rfl⟩
  | cons ev evs ih =>
    intro st i m hm
    obtain ⟨m1, hm1, hcal, _⟩ := step_frame h cals st ev hm
    simp only [runWriter]
    cases hexit : (nextSnapshot h cals st ev).exit with
    | next =>
      obtain ⟨m2, hm2, hcal2⟩ := ih _ i m1 hm1
      exact ⟨m2, hm2, hcal2.trans hcal⟩
    | returned e => exact ⟨m1, hm1, hcal⟩
    | outOfRange => exact ⟨m1, hm1, hcal⟩

/-- C7: across every nextSnapshot of the merge loop (shutdown, idle timeout, snapshot
for a known AliasURL, first snapshot for a new AliasURL, misrouted snapshot),
every Measure already in the record is still there with its Calibration
unchanged, and every Measure other than the one at the resolved index is
unchanged in all its fields; over any sequence of steps the Calibration of a
Measure already in the record never changes. -/
theorem step_preserves_other_measures {χ : Type} [DecidableEq χ] (h : Helpers χ)
    (cals : List Calibration) (st : WriterState) (i : Nat) (m : Measure)
    (hm : st.record.Measures[i]? = some m) :
    (∀ ev : Event, ∃ m1, (nextSnapshot h cals st ev).state.record.Measures[i]? = some m1 ∧
      m1.Calibration = m.Calibration ∧ (touchedIndex st ev ≠ some i → m1 = m)) ∧
    (∀ events : List Event, ∃ m1,
      (runWriter h cals st events).record.Measures[i]? = some m1 ∧
        m1.Calibration = m.Calibration) :=
  ⟨fun ev => step_frame h cals st ev hm,
   fun events => runWriter_calibration h cals events st i m hm⟩

/-- C7 at a record holding one measure and a snapshot for it. -/
theorem step_preserves_other_measures_witness :
    (initWriter recordX).record.Measures[0]? = some ⟨stationX, ⟨"d", 1⟩, [⟨100, 1⟩], 7⟩ ∧
    ∃ m1, (nextSnapshot specHelpers [⟨"d", 1⟩] (initWriter recordX)
        (.snap snapX2 500)).state.record.Measures[0]? = some m1 ∧
      m1.Calibration = (⟨stationX, ⟨"d", 1⟩, [⟨100, 1⟩], 7⟩ : Measure).Calibration ∧
      (touchedIndex (initWriter recordX) (.snap snapX2 500) ≠ some 0 →
        m1 = ⟨stationX, ⟨"d", 1⟩, [⟨100, 1⟩], 7⟩) :=
  ⟨by decide,
    (step_preserves_other_measures specHelpers [⟨"d", 1⟩] (initWriter recordX) 0
      ⟨stationX, ⟨"d", 1⟩, [⟨100, 1⟩], 7⟩ (by decide)).1 (.snap snapX2 500)⟩

/-! ## The helpers of the specification: merging is idempotent -/

theorem readingAt_insertReading (r : Reading) (t : Int) (l : List Reading) :
    readingAt t (insertReading r l) = if r.EventTime = t then some r else readingAt t l := by
  induction l with
  | nil =>
    by_cases h3 : r.EventTime = t <;> simp [insertReading, readingAt, List.find?_cons, h3]
  | cons x xs ih =>
    unfold insertReading
    by_cases h1 : r.EventTime < x.EventTime
    · rw [if_pos h1]
      by_cases h3 : r.EventTime = t <;> simp [readingAt, List.find?_cons, h3]
    · rw [if_neg h1]
      by_cases h2 : r.EventTime = x.EventTime
      · rw [if_pos h2]
        by_cases h3 : r.EventTime = t
        · simp [readingAt, List.find?_cons, h3]
        · have h4 : ¬ x.EventTime = t := fun h => h3 (h2.trans h)
          simp [readingAt, List.find?_cons, h3, h4]
      · rw [if_neg h2]
        unfold readingAt at ih ⊢
        rw [List.find?_cons, ih]
        by_cases h3 : r.EventTime = t
        · have h4 : ¬ x.EventTime = t := fun h => h2 (h3.trans h.symm)
          simp [h3, h4, List.find?_cons]
        · by_cases h4 : x.EventTime = t <;> simp [h3, h4, List.find?_cons]

theorem mem_insertReading {r y : Reading} {l : List Reading}
    (hy : y ∈ insertReading r l) : y = r ∨ y ∈ l := by
  induction l with
  | nil => simpa [insertReading] using hy
  | cons x xs ih =>
    unfold insertReading at hy
    by_cases h1 : r.EventTime < x.EventTime
    · simpa [h1] using hy
    · by_cases h2 : r.EventTime = x.EventTime
      · rw [if_neg h1, if_pos h2] at hy
        rcases List.mem_cons.mp hy with h | h
        · exact Or.inl h
        · exact Or.inr (List.mem_cons_of_mem _ h)
      · rw [if_neg h1, if_neg h2] at hy
        rcases List.mem_cons.mp hy with h | h
        · exact Or.inr (h ▸ List.mem_cons_self _ _)
        · rcases ih h with h | h
          · exact Or.inl h
          · exact Or.inr (List.mem_cons_of_mem _ h)

theorem ascending_insertReading (r : Reading) {l : List Reading} (hl : Ascending l) :
    Ascending (insertReading r l) := by
  induction l with
  | nil => simp [insertReading, Ascending]
  | cons x xs ih =>
    unfold Ascending at hl ih ⊢
    rw [List.pairwise_cons] at hl
    unfold insertReading
    by_cases h1 : r.EventTime < x.EventTime
    · rw [if_pos h1]
      refine List.pairwise_cons.mpr ⟨?_, List.pairwise_cons.mpr hl⟩
      intro y hy
      rcases List.mem_cons.mp hy with h | h
      · rw [h]; exact h1
      · exact lt_trans h1 (hl.1 y h)
    · by_cases h2 : r.EventTime = x.EventTime
      · rw [if_neg h1, if_pos h2]
        refine List.pairwise_cons.mpr ⟨?_, hl.2⟩
        intro y hy
        rw [h2]; exact hl.1 y hy
      · rw [if_neg h1, if_neg h2]
        refine List.pairwise_cons.mpr ⟨?_, ih hl.2⟩
        intro y hy
        rcases mem_insertReading hy with h | h
        · rw [h]; omega
        · exact hl.1 y h

theorem insertReading_last {r : Reading} {l : List Reading}
    (hl : ∀ y ∈ l, y.EventTime < r.EventTime) : insertReading r l = l ++ [r] := by
  induction l with
  | nil => rfl
  | cons x xs ih =>
    have hx : x.EventTime < r.EventTime := hl x (List.mem_cons_self _ _)
    have h1 : ¬ r.EventTime < x.EventTime := by omega
    have h2 : ¬ r.EventTime = x.EventTime := by omega
    unfold insertReading
    rw [if_neg h1, if_neg h2, ih (fun y hy => hl y (List.mem_cons_of_mem _ hy))]
    rfl

theorem foldl_insertReading_ascending (l : List Reading) :
    ∀ acc : List Reading, Ascending (acc ++ l) →
      l.foldl (fun a r => insertReading r a) acc = acc ++ l := by
  induction l with
  | nil => intro acc _; simp
  | cons x xs ih =>
    intro acc hasc
    have hlast : ∀ y ∈ acc, y.EventTime < x.EventTime := by
      intro y hy
      unfold Ascending at hasc
      rw [List.pairwise_append] at hasc
      exact hasc.2.2 y hy x (List.mem_cons_self _ _)
    rw [List.foldl_cons, insertReading_last hlast, ih]
    · simp
    · simpa using hasc

theorem ascending_foldl (l : List Reading) :
    ∀ acc : List Reading, Ascending acc →
      Ascending (l.foldl (fun a r => insertReading r a) acc) := by
  induction l with
  | nil => intro acc h; exact h
  | cons x xs ih => intro acc h; exact ih _ (ascending_insertReading x h)

theorem mem_foldl_insertReading (l : List Reading) :
    ∀ (acc : List Reading) (y : Reading),
      y ∈ l.foldl (fun a r => insertReading r a) acc → y ∈ acc ∨ y ∈ l := by
  induction l with
  | nil => intro acc y h; exact Or.inl h
  | cons x xs ih =>
    intro acc y h
    rcases ih _ y h with h1 | h1
    · rcases mem_insertReading h1 with h2 | h2
      · exact Or.inr (h2 ▸ List.mem_cons_self _ _)
      · exact Or.inl h2
    · exact Or.inr (List.mem_cons_of_mem _ h1)

theorem readingAt_foldl (t : Int) (l : List Reading) :
    ∀ acc : List Reading,
      readingAt t (l.foldl (fun a r => insertReading r a) acc)
        = (readingAt t l.reverse).or (readingAt t acc) := by
  induction l with
  | nil => intro acc; simp [readingAt]
  | cons x xs ih =>
    intro acc
    rw [List.foldl_cons, ih, readingAt_insertReading]
    unfold readingAt
    rw [List.reverse_cons, List.find?_append]
    cases List.find? (fun r => decide (r.EventTime = t)) xs.reverse with
    | some y => simp
    | none =>
      by_cases h : x.EventTime = t <;> simp [h, List.find?_cons]

theorem ascending_merge (a b : List Reading) : Ascending (merge a b) :=
  ascending_foldl _ [] List.Pairwise.nil

theorem mem_merge {a b : List Reading} {y : Reading} (hy : y ∈ merge a b) : y ∈ a ∨ y ∈ b := by
  rcases mem_foldl_insertReading _ [] y hy with h | h
  · cases h
  · exact List.mem_append.mp h

theorem merge_eq_foldl (a b : List Reading) :
    merge a b = b.foldl (fun acc r => insertReading r acc)
      (a.foldl (fun acc r => insertReading r acc) []) := by
  unfold merge
  rw [List.foldl_append]

theorem merge_ascending_left {a : List Reading} (b : List Reading) (ha : Ascending a) :
    merge a b = b.foldl (fun acc r => insertReading r acc) a := by
  rw [merge_eq_foldl]
  have := foldl_insertReading_ascending a [] (by simpa using ha)
  rw [this]
  simp

theorem readingAt_removeOlderThan (e t : Int) (l : List Reading) :
    readingAt t (removeOlderThan e l) = if e ≤ t then readingAt t l else none := by
  induction l with
  | nil => simp [readingAt, removeOlderThan]
  | cons x xs ih =>
    unfold readingAt removeOlderThan at ih ⊢
    by_cases hx : e ≤ x.EventTime
    · rw [List.filter_cons_of_pos (by simpa using hx), List.find?_cons, List.find?_cons, ih]
      by_cases hxt : x.EventTime = t
      · have : e ≤ t := hxt ▸ hx
        simp [hxt, this]
      · simp [hxt]
    · rw [List.filter_cons_of_neg (by simpa using hx), List.find?_cons, ih]
      by_cases hxt : x.EventTime = t
      · have : ¬ e ≤ t := hxt ▸ hx
        simp [this]
      · simp [hxt]

theorem ascending_removeOlderThan (e : Int) {l : List Reading} (hl : Ascending l) :
    Ascending (removeOlderThan e l) :=
  List.Pairwise.filter _ hl

theorem readingAt_none_of_lt {t : Int} {l : List Reading}
    (hl : ∀ y ∈ l, t < y.EventTime) : readingAt t l = none := by
  unfold readingAt
  rw [List.find?_eq_none]
  intro y hy
  have := hl y hy
  simp
  omega

theorem ascending_ext : ∀ {l1 l2 : List Reading}, Ascending l1 → Ascending l2 →
    (∀ t, readingAt t l1 = readingAt t l2) → l1 = l2
  | [], [], _, _, _ => rfl
  | [], y :: ys, _, _, h => by
    have := h y.EventTime
    simp [readingAt, List.find?_cons] at this
  | x :: xs, [], _, _, h => by
    have := h x.EventTime
    simp [readingAt, List.find?_cons] at this
  | x :: xs, y :: ys, h1, h2, h => by
    have h1c := List.pairwise_cons.mp h1
    have h2c := List.pairwise_cons.mp h2
    have hx := h x.EventTime
    have hy := h y.EventTime
    have hxy : x = y := by
      by_cases hte : x.EventTime = y.EventTime
      · simpa [readingAt, List.find?_cons, hte] using hx
      · have hte' : ¬ y.EventTime = x.EventTime := fun h => hte h.symm
        -- x occurs in ys and y occurs in xs: impossible in ascending lists
        have hxin : x ∈ ys := by
          have : readingAt x.EventTime ys = some x := by
            simpa [readingAt, List.find?_cons, hte'] using hx.symm
          exact List.mem_of_find?_eq_some this
        have hyin : y ∈ xs := by
          have : readingAt y.EventTime xs = some y := by
            simpa [readingAt, List.find?_cons, hte] using hy
          exact List.mem_of_find?_eq_some this
        have := h1c.1 y hyin
        have := h2c.1 x hxin
        omega
    subst hxy
    have htail : ∀ t, readingAt t xs = readingAt t ys := by
      intro t
      by_cases ht : x.EventTime = t
      · subst ht
        rw [readingAt_none_of_lt h1c.1, readingAt_none_of_lt h2c.1]
      · simpa [readingAt, List.find?_cons, ht] using h t
    rw [ascending_ext h1c.2 h2c.2 htail]

/-- Merging the same readings a second time, at the same cut-off, changes
nothing. -/
theorem removeOlderThan_merge_idem (e : Int) (a b : List Reading) :
    removeOlderThan e (merge (removeOlderThan e (merge a b)) b)
      = removeOlderThan e (merge a b) := by
  apply ascending_ext (ascending_removeOlderThan e (ascending_merge _ _))
    (ascending_removeOlderThan e (ascending_merge _ _))
  intro t
  have hx : Ascending (removeOlderThan e (merge a b)) :=
    ascending_removeOlderThan e (ascending_merge _ _)
  rw [readingAt_removeOlderThan, merge_ascending_left b hx, readingAt_foldl,
    readingAt_removeOlderThan, merge_eq_foldl, readingAt_foldl]
  by_cases ht : e ≤ t
  · simp only [if_pos ht]
    cases readingAt t b.reverse <;> simp
  · simp only [if_neg ht]

theorem removeOlderThan_congr {e1 e2 : Int} {l : List Reading}
    (h : ∀ r ∈ l, (e1 ≤ r.EventTime ↔ e2 ≤ r.EventTime)) :
    removeOlderThan e2 l = removeOlderThan e1 l := by
  unfold removeOlderThan
  apply List.filter_congr
  intro r hr
  have := h r hr
  by_cases h1 : e1 ≤ r.EventTime
  · simp [h1, this.mp h1]
  · have h2 : ¬ e2 ≤ r.EventTime := fun h2 => h1 (this.mpr h2)
    simp [h1, h2]

/-! ## Merge loop: the same snapshot twice -/

theorem mergedMeasure_congr_now {χ : Type} (ck : Measure → χ) (m : Measure) (snap : Snapshot)
    {now1 now2 : Int}
    (hsame : ∀ r : Reading, r ∈ snap.Readings ∨ r ∈ m.Readings →
      (now1 - retention ≤ r.EventTime ↔ now2 - retention ≤ r.EventTime)) :
    mergedMeasure (helpersWith ck) m snap now2 = mergedMeasure (helpersWith ck) m snap now1 := by
  have hcongr : removeOlderThan (now2 - retention) (merge m.Readings snap.Readings)
      = removeOlderThan (now1 - retention) (merge m.Readings snap.Readings) := by
    apply removeOlderThan_congr
    intro r hr
    rcases mem_merge hr with h | h
    · exact hsame r (Or.inr h)
    · exact hsame r (Or.inl h)
  simp only [mergedMeasure, helpersWith, hcongr]

theorem mergedMeasure_accepted {χ : Type} (ck : Measure → χ) (m : Measure) (snap : Snapshot)
    {now1 now2 : Int}
    (hsame : ∀ r : Reading, r ∈ snap.Readings ∨ r ∈ m.Readings →
      (now1 - retention ≤ r.EventTime ↔ now2 - retention ≤ r.EventTime)) :
    mergedMeasure (helpersWith ck) (acceptedMeasure (helpersWith ck) m snap now1) snap now2
      = acceptedMeasure (helpersWith ck) m snap now1 := by
  have hmem : ∀ r ∈ merge (removeOlderThan (now1 - retention)
      (merge m.Readings snap.Readings)) snap.Readings,
      (now1 - retention ≤ r.EventTime ↔ now2 - retention ≤ r.EventTime) := by
    intro r hr
    rcases mem_merge hr with h | h
    · have h1 : r ∈ merge m.Readings snap.Readings := by
        unfold removeOlderThan at h
        exact (List.mem_filter.mp h).1
      rcases mem_merge h1 with h2 | h2
      · exact hsame r (Or.inr h2)
      · exact hsame r (Or.inl h2)
    · exact hsame r (Or.inl h)
  have hread : removeOlderThan (now2 - retention)
      (merge (removeOlderThan (now1 - retention) (merge m.Readings snap.Readings))
        snap.Readings)
      = removeOlderThan (now1 - retention) (merge m.Readings snap.Readings) := by
    rw [removeOlderThan_congr hmem, removeOlderThan_merge_idem]
  simp only [mergedMeasure, acceptedMeasure, helpersWith, hread]

theorem second_merge_stores_nothing {χ : Type} [DecidableEq χ] (ck : Measure → χ)
    (cals : List Calibration) (st1 : WriterState) (j : Nat) (snap : Snapshot)
    (now1 now2 : Int)
    (hlookup : st1.aliasURLToIndex.lookup snap.Station.AliasURL = some j)
    (hsame : ∀ r : Reading,
      (r ∈ snap.Readings ∨ ∃ m, st1.record.Measures[j]? = some m ∧ r ∈ m.Readings) →
      (now1 - retention ≤ r.EventTime ↔ now2 - retention ≤ r.EventTime)) :
    (nextSnapshot (helpersWith ck) cals (mergeAt (helpersWith ck) st1 j snap now1).state
      (.snap snap now2)).stored = none := by
  cases hm : st1.record.Measures[j]? with
  | none =>
    rw [mergeAt_outOfRange _ snap now1 hm, step_snap_ok _ now2 (resolve_known hlookup),
      mergeAt_outOfRange _ snap now2 hm]
  | some m0 =>
    have hsame0 : ∀ r : Reading, r ∈ snap.Readings ∨ r ∈ m0.Readings →
        (now1 - retention ≤ r.EventTime ↔ now2 - retention ≤ r.EventTime) := by
      intro r hr
      apply hsame r
      rcases hr with h | h
      · exact Or.inl h
      · exact Or.inr ⟨m0, hm, h⟩
    by_cases hck : (helpersWith ck).Checksum m0
        = (helpersWith ck).Checksum (mergedMeasure (helpersWith ck) m0 snap now1)
    · rw [mergeAt_unchanged _ snap now1 hm hck, step_snap_ok _ now2 (resolve_known hlookup)]
      have hck2 : (helpersWith ck).Checksum m0
          = (helpersWith ck).Checksum (mergedMeasure (helpersWith ck) m0 snap now2) := by
        rw [mergedMeasure_congr_now ck m0 snap hsame0]; exact hck
      rw [mergeAt_unchanged _ snap now2 hm hck2]
    · rw [mergeAt_changed _ snap now1 hm hck]
      have hlt : j < st1.record.Measures.length := (List.getElem?_eq_some_iff.mp hm).1
      have hget : (st1.withMeasure j
            (acceptedMeasure (helpersWith ck) m0 snap now1)).record.Measures[j]?
          = some (acceptedMeasure (helpersWith ck) m0 snap now1) := by
        simp only [WriterState.withMeasure, Record.setMeasure]
        exact List.getElem?_set_self hlt
      have hres : resolve cals (st1.withMeasure j
            (acceptedMeasure (helpersWith ck) m0 snap now1)) snap
          = .ok (j, st1.withMeasure j (acceptedMeasure (helpersWith ck) m0 snap now1)) :=
        resolve_known hlookup
      rw [step_snap_ok _ now2 hres]
      have hck2 : (helpersWith ck).Checksum (acceptedMeasure (helpersWith ck) m0 snap now1)
          = (helpersWith ck).Checksum (mergedMeasure (helpersWith ck)
              (acceptedMeasure (helpersWith ck) m0 snap now1) snap now2) := by
        rw [mergedMeasure_accepted ck m0 snap hsame0]
      rw [mergeAt_unchanged _ snap now2 hget hck2]

theorem second_step_stores_nothing {χ : Type} [DecidableEq χ] (ck : Measure → χ)
    (cals : List Calibration) (st : WriterState) (snap : Snapshot) (now1 now2 : Int)
    (hsame : ∀ r : Reading,
      (r ∈ snap.Readings ∨ ∃ m ∈ st.record.Measures, r ∈ m.Readings) →
      (now1 - retention ≤ r.EventTime ↔ now2 - retention ≤ r.EventTime)) :
    (nextSnapshot (helpersWith ck) cals (nextSnapshot (helpersWith ck) cals st (.snap snap now1)).state
      (.snap snap now2)).stored = none := by
  rcases resolve_cases cals st snap with ⟨he, _, _⟩ | ⟨j, hj, hok⟩ | ⟨hnew, _, hok⟩
  · rw [step_snap_error _ now1 he, step_snap_error _ now2 he]
  · rw [step_snap_ok _ now1 hok]
    apply second_merge_stores_nothing ck cals st j snap now1 now2 hj
    intro r hr
    apply hsame r
    rcases hr with h | ⟨m, hm, h⟩
    · exact Or.inl h
    · obtain ⟨hlt, heq⟩ := List.getElem?_eq_some_iff.mp hm
      exact Or.inr ⟨m, heq ▸ List.getElem_mem hlt, h⟩
  · rw [step_snap_ok _ now1 hok]
    apply second_merge_stores_nothing ck cals _ _ snap now1 now2
    · simp [WriterState.addMeasure, placeholder, List.lookup]
    · intro r hr
      rcases hr with h | ⟨m, hm, h⟩
      · exact hsame r (Or.inl h)
      · simp [WriterState.addMeasure, placeholder] at hm
        rw [← hm] at h
        cases h

theorem storeCalls_two (χ : Type) [DecidableEq χ] (h : Helpers χ) (cals : List Calibration)
    (st : WriterState) (e1 e2 : Event)
    (h2 : (nextSnapshot h cals (nextSnapshot h cals st e1).state e2).stored = none) :
    storeCalls h cals st [e1, e2] = (nextSnapshot h cals st e1).stored.toList := by
  simp only [storeCalls]
  cases (nextSnapshot h cals st e1).exit with
  | next =>
    simp only [h2]
    cases (nextSnapshot h cals (nextSnapshot h cals st e1).state e2).exit <;> simp
  | returned e => simp
  | outOfRange => simp

theorem step_stored_isSome_iff {χ : Type} [DecidableEq χ] (h : Helpers χ)
    {cals : List Calibration} {st st1 : WriterState} {snap : Snapshot} {index : Nat}
    {m0 : Measure} (now : Int)
    (hres : resolve cals st snap = .ok (index, st1))
    (hm : st1.record.Measures[index]? = some m0) :
    (nextSnapshot h cals st (.snap snap now)).stored.toList.length
      = if h.Checksum (mergedMeasure h m0 snap now) = h.Checksum m0 then 0 else 1 := by
  rw [step_snap_ok h now hres]
  by_cases hck : h.Checksum m0 = h.Checksum (mergedMeasure h m0 snap now)
  · rw [mergeAt_unchanged h snap now hm hck, if_pos hck.symm]
    rfl
  · rw [mergeAt_changed h snap now hm hck, if_neg (fun heq => hck heq.symm)]
    rfl

/-- C5, as stated, fails: the record already holds the reading the snapshot
carries, taken one second after 2016-01-01T10:30:00Z, and the snapshot is fed
one hour and two hours after that instant.  Neither merge changes the measure,
so `Writer.Store` is not called at all, and the first merge does not store;
this is so whatever the checksum function is. -/
theorem storeCalls_same_snapshot_twice_none :
    storeCalls specHelpers recordRecent.Section.Measures (initWriter recordRecent)
      [.snap snapRecent (instantTest + hour), .snap snapRecent (instantTest + 2 * hour)]
      = [] ∧
    (nextSnapshot specHelpers recordRecent.Section.Measures (initWriter recordRecent)
      (.snap snapRecent (instantTest + hour))).stored = none ∧
    (∀ ck : Measure → Nat,
      storeCalls (helpersWith ck) recordRecent.Section.Measures (initWriter recordRecent)
        [.snap snapRecent (instantTest + hour), .snap snapRecent (instantTest + 2 * hour)]
        = []) := by
  refine ⟨by decide, by decide, ?_⟩
  intro ck
  have hres : ∀ now : Int, nextSnapshot (helpersWith ck) recordRecent.Section.Measures
      (initWriter recordRecent) (.snap snapRecent now)
      = mergeAt (helpersWith ck) (initWriter recordRecent) 0 snapRecent now :=
    fun now => step_snap_ok _ now rfl
  have hm : (initWriter recordRecent).record.Measures[0]?
      = some ⟨stationX, ⟨"d", 1⟩, [⟨instantTest + 1000000000, 1067282596⟩], instantTest⟩ :=
    rfl
  have hsame1 : mergedMeasure (helpersWith ck)
      ⟨stationX, ⟨"d", 1⟩, [⟨instantTest + 1000000000, 1067282596⟩], instantTest⟩
      snapRecent (instantTest + hour)
      = ⟨stationX, ⟨"d", 1⟩, [⟨instantTest + 1000000000, 1067282596⟩], instantTest⟩ := by
    have hspec : mergedMeasure (helpersWith ck)
        ⟨stationX, ⟨"d", 1⟩, [⟨instantTest + 1000000000, 1067282596⟩], instantTest⟩
        snapRecent (instantTest + hour)
        = mergedMeasure specHelpers
          ⟨stationX, ⟨"d", 1⟩, [⟨instantTest + 1000000000, 1067282596⟩], instantTest⟩
          snapRecent (instantTest + hour) := rfl
    rw [hspec]
    decide
  have hsame2 : mergedMeasure (helpersWith ck)
      ⟨stationX, ⟨"d", 1⟩, [⟨instantTest + 1000000000, 1067282596⟩], instantTest⟩
      snapRecent (instantTest + 2 * hour)
      = ⟨stationX, ⟨"d", 1⟩, [⟨instantTest + 1000000000, 1067282596⟩], instantTest⟩ := by
    have hspec : mergedMeasure (helpersWith ck)
        ⟨stationX, ⟨"d", 1⟩, [⟨instantTest + 1000000000, 1067282596⟩], instantTest⟩
        snapRecent (instantTest + 2 * hour)
        = mergedMeasure specHelpers
          ⟨stationX, ⟨"d", 1⟩, [⟨instantTest + 1000000000, 1067282596⟩], instantTest⟩
          snapRecent (instantTest + 2 * hour) := rfl
    rw [hspec]
    decide
  have hstep1 := mergeAt_unchanged (helpersWith ck) snapRecent (instantTest + hour) hm
    (by rw [hsame1])
  have hstep2 := mergeAt_unchanged (helpersWith ck) snapRecent (instantTest + 2 * hour) hm
    (by rw [hsame2])
  rw [storeCalls_two, hres, hstep1]
  · rfl
  · rw [hres, hstep1, hres, hstep2]

/-- C5 (amended): for every record and every snapshot, feeding the same
snapshot to the merge loop twice in a row, with no reading of the record or of
the snapshot falling on different sides of the retention cut-off at the two
merges, produces at most one call to `Writer.Store`: the second merge finds
the checksum unchanged and does not store, and the first merge stores exactly
when it changes the checksum of the measure the snapshot resolves to (one call
then, none when the record already holds the snapshot's content). -/
theorem storeCalls_same_snapshot_twice {χ : Type} [DecidableEq χ] (ck : Measure → χ)
    (cals : List Calibration) (st : WriterState) (snap : Snapshot) (now1 now2 : Int)
    (hsame : ∀ r : Reading,
      (r ∈ snap.Readings ∨ ∃ m ∈ st.record.Measures, r ∈ m.Readings) →
      (now1 - retention ≤ r.EventTime ↔ now2 - retention ≤ r.EventTime)) :
    (nextSnapshot (helpersWith ck) cals (nextSnapshot (helpersWith ck) cals st (.snap snap now1)).state
      (.snap snap now2)).stored = none ∧
    storeCalls (helpersWith ck) cals st [.snap snap now1, .snap snap now2]
      = (nextSnapshot (helpersWith ck) cals st (.snap snap now1)).stored.toList ∧
    (storeCalls (helpersWith ck) cals st [.snap snap now1, .snap snap now2]).length ≤ 1 ∧
    (∀ (index : Nat) (st1 : WriterState) (m0 : Measure),
      resolve cals st snap = .ok (index, st1) → st1.record.Measures[index]? = some m0 →
      (((nextSnapshot (helpersWith ck) cals st (.snap snap now1)).stored.isSome = true ↔
          ck (mergedMeasure (helpersWith ck) m0 snap now1) ≠ ck m0) ∧
        ((storeCalls (helpersWith ck) cals st [.snap snap now1, .snap snap now2]).length = 1 ↔
          ck (mergedMeasure (helpersWith ck) m0 snap now1) ≠ ck m0) ∧
        ((storeCalls (helpersWith ck) cals st [.snap snap now1, .snap snap now2]).length = 0 ↔
          ck (mergedMeasure (helpersWith ck) m0 snap now1) = ck m0))) := by
  have h2 := second_step_stores_nothing ck cals st snap now1 now2 hsame
  have hcalls := storeCalls_two χ (helpersWith ck) cals st (.snap snap now1) (.snap snap now2) h2
  refine ⟨h2, hcalls, ?_, ?_⟩
  · rw [hcalls]
    cases (nextSnapshot (helpersWith ck) cals st (.snap snap now1)).stored <;> simp
  · intro index st1 m0 hres hm
    have hlen := step_stored_isSome_iff (helpersWith ck) now1 hres hm
    have hck : (helpersWith ck).Checksum = ck := rfl
    rw [hck] at hlen
    rw [hcalls]
    by_cases heq : ck (mergedMeasure (helpersWith ck) m0 snap now1) = ck m0
    · rw [if_pos heq] at hlen
      refine ⟨?_, ?_, ?_⟩
      · cases hst : (nextSnapshot (helpersWith ck) cals st (.snap snap now1)).stored with
        | none => simp [heq]
        | some r => rw [hst] at hlen; simp at hlen
      · rw [hlen]; simp [heq]
      · rw [hlen]; simp [heq]
    · rw [if_neg heq] at hlen
      refine ⟨?_, ?_, ?_⟩
      · cases hst : (nextSnapshot (helpersWith ck) cals st (.snap snap now1)).stored with
        | none => rw [hst] at hlen; simp at hlen
        | some r => simp [heq]
      · rw [hlen]; simp [heq]
      · rw [hlen]; simp [heq]

/-- C5 (amended) at an empty record, the snapshot fed one hour and two hours
after 2016-01-01T10:30:00Z: the first merge stores, the second does not. -/
theorem storeCalls_same_snapshot_twice_witness :
    (∀ r : Reading,
      (r ∈ snapRecent.Readings ∨
        ∃ m ∈ (initWriter emptyRecord).record.Measures, r ∈ m.Readings) →
      (instantTest + hour - retention ≤ r.EventTime ↔
        instantTest + 2 * hour - retention ≤ r.EventTime)) ∧
    (storeCalls (helpersWith Measure.Checksum) [⟨"d", 1⟩] (initWriter emptyRecord)
      [.snap snapRecent (instantTest + hour),
       .snap snapRecent (instantTest + 2 * hour)]).length = 1 ∧
    (nextSnapshot (helpersWith Measure.Checksum) [⟨"d", 1⟩]
      (nextSnapshot (helpersWith Measure.Checksum) [⟨"d", 1⟩] (initWriter emptyRecord)
        (.snap snapRecent (instantTest + hour))).state
      (.snap snapRecent (instantTest + 2 * hour))).stored = none :=
  have hsame : ∀ r : Reading,
      (r ∈ snapRecent.Readings ∨
        ∃ m ∈ (initWriter emptyRecord).record.Measures, r ∈ m.Readings) →
      (instantTest + hour - retention ≤ r.EventTime ↔
        instantTest + 2 * hour - retention ≤ r.EventTime) := by
    intro r hr
    have hr1 : r = ⟨instantTest + 1000000000, 1067282596⟩ := by
      simpa [snapRecent, initWriter, emptyRecord] using hr
    subst hr1
    decide
  ⟨hsame, by decide,
    (storeCalls_same_snapshot_twice Measure.Checksum [⟨"d", 1⟩] (initWriter emptyRecord)
      snapRecent (instantTest + hour) (instantTest + 2 * hour) hsame).1⟩

/-! ## Bus client -/

theorem ackCalls_map (Decode : List Nat → Snapshot × Option String)
    (fn : Snapshot → Option String → Unit) (msgs : List Message) :
    ackCalls msgs (msgs.map (onMessage Decode fn)) = msgs.map (fun m => BusCall.ack m.ID) := by
  unfold ackCalls
  induction msgs with
  | nil => rfl
  | cons m ms ih =>
    simp only [List.map_cons, List.zip_cons_cons, List.filterMap_cons, ih]
    rfl

theorem Subscribe_ready (bus : Bus) (Decode : List Nat → Snapshot × Option String)
    (t : Topic) (consumerGroup stamp : String) (fn : Snapshot → Option String → Unit)
    (msgs : List Message) (topic : PubSubTopic)
    (ht : t.pubSub = some topic) (hclient : bus.newClient t.ProjectID = none)
    (hsub : bus.subscriptionExists (subscriptionName topic consumerGroup stamp) = .ok true ∨
      (bus.subscriptionExists (subscriptionName topic consumerGroup stamp) = .ok false ∧
        bus.createSubscription (subscriptionName topic consumerGroup stamp) = none)) :
    (Topic.Subscribe bus Decode t consumerGroup stamp fn msgs).deliveries
        = msgs.map (onMessage Decode fn) ∧
    (Topic.Subscribe bus Decode t consumerGroup stamp fn msgs).err = bus.receive ∧
    ∀ m ∈ msgs, BusCall.ack m.ID ∈
      (Topic.Subscribe bus Decode t consumerGroup stamp fn msgs).calls := by
  have hack : ∀ m ∈ msgs, BusCall.ack m.ID ∈ ackCalls msgs (msgs.map (onMessage Decode fn)) := by
    intro m hm
    rw [ackCalls_map]
    exact List.mem_map.mpr ⟨m, hm, rfl⟩
  unfold Topic.Subscribe
  rcases hsub with hsub | ⟨hsub, hcreate⟩
  · simp only [ht, hclient, hsub]
    refine ⟨by first | rfl | trivial, by first | rfl | trivial, ?_⟩
    intro m hm
    have := hack m hm
    simp [this]
  · simp only [ht, hclient, hsub, hcreate]
    refine ⟨by first | rfl | trivial, by first | rfl | trivial, ?_⟩
    intro m hm
    have := hack m hm
    simp [this]

/-- What `Topic.Subscribe` does with the messages it receives once the
subscription is set up: the handler is called once on every delivered
message, in order, with the decoded snapshot and the decode error as its
arguments, every message is acknowledged after that call whether or not the
payload decoded, and `Subscribe` returns what `Receive` returns. -/
theorem Subscribe_acks_every_message (bus : Bus)
    (Decode : List Nat → Snapshot × Option String) (t : Topic) (consumerGroup stamp : String)
    (fn : Snapshot → Option String → Unit) (msgs : List Message) (topic : PubSubTopic)
    (ht : t.pubSub = some topic) (hclient : bus.newClient t.ProjectID = none)
    (hsub : bus.subscriptionExists (subscriptionName topic consumerGroup stamp) = .ok true ∨
      (bus.subscriptionExists (subscriptionName topic consumerGroup stamp) = .ok false ∧
        bus.createSubscription (subscriptionName topic consumerGroup stamp) = none)) :
    (∀ m : Message, (onMessage Decode fn m).acked = true ∧
      (onMessage Decode fn m).snapshot = (Decode m.Data).1 ∧
      (onMessage Decode fn m).err = (Decode m.Data).2) ∧
    (Topic.Subscribe bus Decode t consumerGroup stamp fn msgs).deliveries
        = msgs.map (onMessage Decode fn) ∧
    (∀ d ∈ (Topic.Subscribe bus Decode t consumerGroup stamp fn msgs).deliveries,
      d.acked = true) ∧
    (∀ m ∈ msgs, BusCall.ack m.ID ∈
      (Topic.Subscribe bus Decode t consumerGroup stamp fn msgs).calls) ∧
    (Topic.Subscribe bus Decode t consumerGroup stamp fn msgs).err = bus.receive := by
  obtain ⟨hd, herr, hack⟩ :=
    Subscribe_ready bus Decode t consumerGroup stamp fn msgs topic ht hclient hsub
  refine ⟨fun m => ⟨rfl, rfl, rfl⟩, hd, ?_, hack, herr⟩
  intro d hdm
  rw [hd] at hdm
  obtain ⟨m, _, rfl⟩ := List.mem_map.mp hdm
  rfl

/-- The statement above at two messages, the first of which does not decode. -/
theorem Subscribe_acks_every_message_witness :
    topicLive.pubSub = some ⟨"gauge"⟩ ∧ busOK.newClient topicLive.ProjectID = none ∧
    (busOK.subscriptionExists (subscriptionName ⟨"gauge"⟩ "" "v2016") = .ok true ∨
      (busOK.subscriptionExists (subscriptionName ⟨"gauge"⟩ "" "v2016") = .ok false ∧
        busOK.createSubscription (subscriptionName ⟨"gauge"⟩ "" "v2016") = none)) ∧
    ∀ d ∈ (Topic.Subscribe busOK decodeSample topicLive "" "v2016" (fun _ _ => ())
        [⟨1, []⟩, ⟨2, [7]⟩]).deliveries, d.acked = true :=
  ⟨rfl, rfl, Or.inr ⟨rfl, rfl⟩,
    (Subscribe_acks_every_message busOK decodeSample topicLive "" "v2016" (fun _ _ => ())
      [⟨1, []⟩, ⟨2, [7]⟩] ⟨"gauge"⟩ rfl rfl (Or.inr ⟨rfl, rfl⟩)).2.2.1⟩

/-- C8 at one delivered message, number 1 with a payload that decodes, on a
live topic: whatever the handler is (it has no result to ask for a redelivery
with, and may well have failed on the snapshot), the callback acknowledges the
message, and the acknowledgement is among the calls `Subscribe` makes.  The
other half of the claim holds here: the handler is called with the decoded
snapshot and no error, and a payload that does not decode reaches it as its
error argument. -/
theorem Subscribe_acks_whatever_the_handler :
    (∀ fn : Snapshot → Option String → Unit,
      (onMessage decodeSample fn ⟨1, [7]⟩).acked = true ∧
      (onMessage decodeSample fn ⟨1, [7]⟩).err = none ∧
      (Topic.Subscribe busOK decodeSample topicLive "" "v2016" fn [⟨1, [7]⟩]).calls
        = [.newClient "proj", .subscriptionExists "gauge.v2016",
           .createSubscription "gauge.v2016" 20, .receive "gauge.v2016", .ack 1,
           .deleteSubscription "gauge.v2016"]) ∧
    (onMessage decodeSample (fun _ _ => ()) ⟨2, []⟩).err = some "EOF" ∧
    (onMessage decodeSample (fun _ _ => ()) ⟨2, []⟩).acked = true := by
  refine ⟨fun fn => ⟨rfl, rfl, rfl⟩, rfl, rfl⟩

/-- C10: for a blank project ID, `queue.New` returns a Topic and no error
without any call to the bus; on that Topic, `Publish` encodes the snapshot
and returns the encoder's error, or nil, without any call to the bus, `Stop`
makes no call however many times it is called, and `Subscribe` fails with the
error "Topic has no project ID" without any call to the bus and without ever
invoking the handler. -/
theorem blank_project_skips_bus (bus : Bus) (topicName : String)
    (Encode : Snapshot → Except String (List Nat))
    (Decode : List Nat → Snapshot × Option String) (s : Snapshot)
    (consumerGroup stamp : String) (fn : Snapshot → Option String → Unit)
    (msgs : List Message) (n : Nat) :
    (New bus "" topicName).value = .ok topicBlank ∧
    (New bus "" topicName).calls = [] ∧
    (Topic.Publish bus Encode topicBlank s).calls = [] ∧
    (∀ err, Encode s = .error err → (Topic.Publish bus Encode topicBlank s).value = some err) ∧
    (∀ data, Encode s = .ok data → (Topic.Publish bus Encode topicBlank s).value = none) ∧
    ((List.replicate n topicBlank).flatMap Topic.Stop) = [] ∧
    (Topic.Subscribe bus Decode topicBlank consumerGroup stamp fn msgs).err
      = some "Topic has no project ID" ∧
    (Topic.Subscribe bus Decode topicBlank consumerGroup stamp fn msgs).calls = [] ∧
    (Topic.Subscribe bus Decode topicBlank consumerGroup stamp fn msgs).deliveries = [] := by
  refine ⟨rfl, rfl, ?_, ?_, ?_, ?_, rfl, rfl, rfl⟩
  · unfold Topic.Publish
    cases Encode s <;> rfl
  · intro err he
    unfold Topic.Publish
    rw [he]
  · intro data he
    unfold Topic.Publish
    rw [he]
    rfl
  · induction n with
    | zero => rfl
    | succ k ih => rw [List.replicate_succ, List.flatMap_cons, ih]; rfl

/-! ## Producer loop -/

theorem failed_cons_succ (c : Cycle) (cs : List Cycle) (i : Nat) :
    failed (c :: cs) (i + 1) = failed cs i := by
  simp [failed]

theorem consecutiveErrFrom_cons_succ (n : Nat) (c : Cycle) (cs : List Cycle) (i : Nat) :
    consecutiveErrFrom n (c :: cs) (i + 1)
      = consecutiveErrFrom (consecutiveErrFrom n (c :: cs) 0) cs i := by
  induction i with
  | zero => simp only [consecutiveErrFrom, failed_cons_succ]
  | succ i ih =>
    have hl : consecutiveErrFrom n (c :: cs) (i + 1 + 1)
        = if failed (c :: cs) (i + 1 + 1) then consecutiveErrFrom n (c :: cs) (i + 1) + 1
          else 0 := rfl
    have hr : consecutiveErrFrom (consecutiveErrFrom n (c :: cs) 0) cs (i + 1)
        = if failed cs (i + 1)
          then consecutiveErrFrom (consecutiveErrFrom n (c :: cs) 0) cs i + 1 else 0 := rfl
    rw [hl, hr, ih, failed_cons_succ]

theorem map_later_eq (x : Option Returned) (i : Nat) (r : Option String) :
    x.map Returned.later = some ⟨i, r⟩ ↔ ∃ j, i = j + 1 ∧ x = some ⟨j, r⟩ := by
  cases x with
  | none => simp
  | some y =>
    obtain ⟨j, r1⟩ := y
    simp only [Option.map_some', Returned.later, Option.some.injEq, Returned.mk.injEq]
    constructor
    · rintro ⟨h1, h2⟩
      exact ⟨j, h1.symm, rfl, h2⟩
    · rintro ⟨j1, h1, h2, h3⟩
      exact ⟨by omega, h3⟩

/-- What it takes for the loop, entered after `n` failures in a row, to return
the error `e` at cycle `i`. -/
theorem runLoop_error_iff (cfg : config) (hk : 1 ≤ cfg.ExitAfterXConsecutiveErr)
    (cs : List Cycle) :
    ∀ (n i : Nat) (e : String),
      cfg.updateLoop (n : Int) cs = some ⟨i, some e⟩ ↔
        (∃ c, cs[i]? = some c ∧ c.err = some e) ∧
        cfg.ExitAfterXConsecutiveErr ≤ (consecutiveErrFrom n cs i : Int) ∧
        (∀ j, j < i → (consecutiveErrFrom n cs j : Int) < cfg.ExitAfterXConsecutiveErr) ∧
        (∀ j, j < i → ∀ c, cs[j]? = some c → c.done = false) := by
  induction cs with
  | nil => intro n i e; simp [config.updateLoop]
  | cons c cs ih =>
    intro n i e
    -- the conditions on a later cycle, in terms of the tail of the list
    have hshift : ∀ (m i1 : Nat), consecutiveErrFrom n (c :: cs) 0 = m →
        (m : Int) < cfg.ExitAfterXConsecutiveErr → c.done = false →
        (((∃ c1, (c :: cs)[i1 + 1]? = some c1 ∧ c1.err = some e) ∧
          cfg.ExitAfterXConsecutiveErr ≤ (consecutiveErrFrom n (c :: cs) (i1 + 1) : Int) ∧
          (∀ j, j < i1 + 1 →
            (consecutiveErrFrom n (c :: cs) j : Int) < cfg.ExitAfterXConsecutiveErr) ∧
          (∀ j, j < i1 + 1 → ∀ c1, (c :: cs)[j]? = some c1 → c1.done = false)) ↔
         ((∃ c1, cs[i1]? = some c1 ∧ c1.err = some e) ∧
          cfg.ExitAfterXConsecutiveErr ≤ (consecutiveErrFrom m cs i1 : Int) ∧
          (∀ j, j < i1 → (consecutiveErrFrom m cs j : Int) < cfg.ExitAfterXConsecutiveErr) ∧
          (∀ j, j < i1 → ∀ c1, cs[j]? = some c1 → c1.done = false))) := by
      intro m i1 hm hlt hdone
      constructor
      · rintro ⟨h1, h2, h3, h4⟩
        refine ⟨by simpa using h1, ?_, ?_, ?_⟩
        · rw [consecutiveErrFrom_cons_succ, hm] at h2; exact h2
        · intro j hj
          have := h3 (j + 1) (by omega)
          rw [consecutiveErrFrom_cons_succ, hm] at this; exact this
        · intro j hj c1 hc1
          exact h4 (j + 1) (by omega) c1 (by simpa using hc1)
      · rintro ⟨h1, h2, h3, h4⟩
        refine ⟨by simpa using h1, ?_, ?_, ?_⟩
        · rw [consecutiveErrFrom_cons_succ, hm]; exact h2
        · intro j hj
          cases j with
          | zero => rw [hm]; exact hlt
          | succ j =>
            rw [consecutiveErrFrom_cons_succ, hm]
            exact h3 j (by omega)
        · intro j hj c1 hc1
          cases j with
          | zero =>
            have : c = c1 := by simpa using hc1
            rw [← this]; exact hdone
          | succ j => exact h4 j (by omega) c1 (by simpa using hc1)
    cases herr : c.err with
    | some err =>
      have h0 : consecutiveErrFrom n (c :: cs) 0 = n + 1 := by
        simp [consecutiveErrFrom, failed, herr]
      by_cases hge : (n : Int) + 1 ≥ cfg.ExitAfterXConsecutiveErr
      · -- the threshold is reached at this cycle
        have hrun : cfg.updateLoop (n : Int) (c :: cs) = some ⟨0, some err⟩ := by
          simp [config.updateLoop, herr, hge]
        rw [hrun]
        constructor
        · intro h
          simp only [Option.some.injEq, Returned.mk.injEq] at h
          obtain ⟨hi, he⟩ := h
          subst hi; subst he
          refine ⟨⟨c, by simp, herr⟩, ?_, by intro j hj; omega, by intro j hj; omega⟩
          rw [h0]; push_cast; omega
        · rintro ⟨⟨c1, hc1, he1⟩, _, h3, _⟩
          cases i with
          | zero =>
            have : c = c1 := by simpa using hc1
            rw [← this, herr] at he1
            simp only [Option.some.injEq] at he1
            rw [he1]
          | succ i =>
            have := h3 0 (by omega)
            rw [h0] at this; push_cast at this; omega
      · have hlt : ((n + 1 : Nat) : Int) < cfg.ExitAfterXConsecutiveErr := by
          push_cast; omega
        by_cases hdone : c.done = true
        · have hrun : cfg.updateLoop (n : Int) (c :: cs) = some ⟨0, none⟩ := by
            simp [config.updateLoop, herr, hge, hdone]
          rw [hrun]
          constructor
          · intro h
            simp at h
          · rintro ⟨_, h2, _, h4⟩
            cases i with
            | zero => rw [h0] at h2; omega
            | succ i =>
              have := h4 0 (by omega) c (by simp)
              rw [hdone] at this; cases this
        · have hdone1 : c.done = false := by simpa using hdone
          have hrun : cfg.updateLoop (n : Int) (c :: cs)
              = (cfg.updateLoop ((n + 1 : Nat) : Int) cs).map Returned.later := by
            simp [config.updateLoop, herr, hge, hdone1]
          rw [hrun, map_later_eq]
          cases i with
          | zero =>
            constructor
            · rintro ⟨j, hj, _⟩; omega
            · rintro ⟨_, h2, _, _⟩
              rw [h0] at h2; omega
          | succ i =>
            rw [hshift (n + 1) i h0 hlt hdone1, ← ih (n + 1) i e]
            constructor
            · rintro ⟨j, hj, hr⟩
              have : i = j := by omega
              rw [this]; exact hr
            · intro hr; exact ⟨i, rfl, hr⟩
    | none =>
      have h0 : consecutiveErrFrom n (c :: cs) 0 = 0 := by
        simp [consecutiveErrFrom, failed, herr]
      have hlt : ((0 : Nat) : Int) < cfg.ExitAfterXConsecutiveErr := by
        push_cast; omega
      by_cases hdone : c.done = true
      · have hrun : cfg.updateLoop (n : Int) (c :: cs) = some ⟨0, none⟩ := by
          simp [config.updateLoop, herr, hdone]
        rw [hrun]
        constructor
        · intro h
          simp at h
        · rintro ⟨⟨c1, hc1, he1⟩, _, _, h4⟩
          cases i with
          | zero =>
            have : c = c1 := by simpa using hc1
            rw [← this, herr] at he1
            cases he1
          | succ i =>
            have := h4 0 (by omega) c (by simp)
            rw [hdone] at this; cases this
      · have hdone1 : c.done = false := by simpa using hdone
        have hrun : cfg.updateLoop (n : Int) (c :: cs)
            = (cfg.updateLoop ((0 : Nat) : Int) cs).map Returned.later := by
          simp [config.updateLoop, herr, hdone1]
        rw [hrun, map_later_eq]
        cases i with
        | zero =>
          constructor
          · rintro ⟨j, hj, _⟩; omega
          · rintro ⟨⟨c1, hc1, he1⟩, _, _, _⟩
            have : c = c1 := by simpa using hc1
            rw [← this, herr] at he1
            cases he1
        | succ i =>
          rw [hshift 0 i h0 hlt hdone1, ← ih 0 i e]
          constructor
          · rintro ⟨j, hj, hr⟩
            have : i = j := by omega
            rw [this]; exact hr
          · intro hr; exact ⟨i, rfl, hr⟩

/-- C9: for every sequence of update-cycle outcomes in the EA producer's run
loop, with `ExitAfterXConsecutiveErr` at least 1 (it is 3 in `main`), the loop
returns the error `e` at cycle `i` exactly when cycle `i` failed with `e`, the
number of consecutive failed cycles reaches `ExitAfterXConsecutiveErr` there,
it stayed below it at every earlier cycle, and no shutdown was seen before;
a successful cycle puts the count back to zero, so when the count never
reaches the threshold the loop never returns an error. -/
theorem run_returns_at_threshold (cfg : config) (hk : 1 ≤ cfg.ExitAfterXConsecutiveErr)
    (cycles : List Cycle) :
    (∀ (i : Nat) (e : String),
      cfg.run cycles = some ⟨i, some e⟩ ↔
        (∃ c, cycles[i]? = some c ∧ c.err = some e) ∧
        cfg.ExitAfterXConsecutiveErr ≤ (consecutiveErr cycles i : Int) ∧
        (∀ j, j < i → (consecutiveErr cycles j : Int) < cfg.ExitAfterXConsecutiveErr) ∧
        (∀ j, j < i → ∀ c, cycles[j]? = some c → c.done = false)) ∧
    (∀ i, failed cycles i = false → consecutiveErr cycles i = 0) ∧
    ((∀ i, (consecutiveErr cycles i : Int) < cfg.ExitAfterXConsecutiveErr) →
      ∀ r, cfg.run cycles = some r → r.err = none) := by
  have hmain : ∀ (i : Nat) (e : String),
      cfg.run cycles = some ⟨i, some e⟩ ↔
        (∃ c, cycles[i]? = some c ∧ c.err = some e) ∧
        cfg.ExitAfterXConsecutiveErr ≤ (consecutiveErr cycles i : Int) ∧
        (∀ j, j < i → (consecutiveErr cycles j : Int) < cfg.ExitAfterXConsecutiveErr) ∧
        (∀ j, j < i → ∀ c, cycles[j]? = some c → c.done = false) := by
    intro i e
    have := runLoop_error_iff cfg hk cycles 0 i e
    simpa [config.run, consecutiveErr] using this
  refine ⟨hmain, ?_, ?_⟩
  · intro i hi
    unfold consecutiveErr
    cases i with
    | zero => simp [consecutiveErrFrom, hi]
    | succ i => simp [consecutiveErrFrom, hi]
  · intro hall r hr
    obtain ⟨i, err⟩ := r
    cases err with
    | none => rfl
    | some e =>
      have := ((hmain i e).mp hr).2.1
      have := hall i
      omega

/-- C9 at the configuration of `main`: two failures, a success, then four failures. -/
theorem run_returns_at_threshold_witness :
    1 ≤ (mainConfig "" "gauge").ExitAfterXConsecutiveErr ∧
    ((mainConfig "" "gauge").run
        [⟨some "a", false⟩, ⟨some "b", false⟩, ⟨none, false⟩, ⟨some "c", false⟩,
         ⟨some "d", false⟩, ⟨some "e", false⟩, ⟨some "f", false⟩]
        = some ⟨5, some "e"⟩ ↔
      (∃ c, [(⟨some "a", false⟩ : Cycle), ⟨some "b", false⟩, ⟨none, false⟩, ⟨some "c", false⟩,
          ⟨some "d", false⟩, ⟨some "e", false⟩, ⟨some "f", false⟩][5]? = some c ∧
          c.err = some "e") ∧
      (mainConfig "" "gauge").ExitAfterXConsecutiveErr ≤
        (consecutiveErr [⟨some "a", false⟩, ⟨some "b", false⟩, ⟨none, false⟩,
          ⟨some "c", false⟩, ⟨some "d", false⟩, ⟨some "e", false⟩, ⟨some "f", false⟩] 5 : Int) ∧
      (∀ j, j < 5 →
        (consecutiveErr [⟨some "a", false⟩, ⟨some "b", false⟩, ⟨none, false⟩,
          ⟨some "c", false⟩, ⟨some "d", false⟩, ⟨some "e", false⟩, ⟨some "f", false⟩] j : Int)
          < (mainConfig "" "gauge").ExitAfterXConsecutiveErr) ∧
      (∀ j, j < 5 → ∀ c,
        [(⟨some "a", false⟩ : Cycle), ⟨some "b", false⟩, ⟨none, false⟩, ⟨some "c", false⟩,
          ⟨some "d", false⟩, ⟨some "e", false⟩, ⟨some "f", false⟩][j]? = some c →
          c.done = false)) ∧
    (mainConfig "" "gauge").run
        [⟨some "a", false⟩, ⟨some "b", false⟩, ⟨none, false⟩, ⟨some "c", false⟩,
         ⟨some "d", false⟩, ⟨some "e", false⟩, ⟨some "f", false⟩]
        = some ⟨5, some "e"⟩ :=
  ⟨by decide,
    (run_returns_at_threshold (mainConfig "" "gauge") (by decide)
      [⟨some "a", false⟩, ⟨some "b", false⟩, ⟨none, false⟩, ⟨some "c", false⟩,
       ⟨some "d", false⟩, ⟨some "e", false⟩, ⟨some "f", false⟩]).1 5 "e",
    by decide⟩

/-! ## Merge loop: the identity index -/

theorem mem_of_lookup {k : String} {i : Nat} {l : AliasIndex}
    (h : l.lookup k = some i) : (k, i) ∈ l := by
  obtain ⟨l1, l2, rfl, _⟩ := List.lookup_eq_some_iff.mp h
  simp

theorem mem_foldl_index (l : List (Nat × Measure)) :
    ∀ (acc : AliasIndex) (p : String × Nat),
      p ∈ l.foldl (fun idx q => (q.2.Station.AliasURL, q.1) :: idx) acc →
      p ∈ acc ∨ ∃ q ∈ l, p = (q.2.Station.AliasURL, q.1) := by
  induction l with
  | nil => intro acc p hp; exact Or.inl hp
  | cons x xs ih =>
    intro acc p hp
    rcases ih _ p hp with h | ⟨q, hq, hpq⟩
    · rcases List.mem_cons.mp h with h1 | h1
      · exact Or.inr ⟨x, List.mem_cons_self _ _, h1⟩
      · exact Or.inl h1
    · exact Or.inr ⟨q, List.mem_cons_of_mem _ hq, hpq⟩

theorem indexInvariant_initWriter (record : Record) : IndexInvariant (initWriter record) := by
  intro p hp
  rcases mem_foldl_index _ [] p hp with h | ⟨q, hq, hpq⟩
  · cases h
  · obtain ⟨i, m⟩ := q
    have hget : record.Measures[i]? = some m := List.mk_mem_enum_iff_getElem?.mp hq
    subst hpq
    exact ⟨m, hget, rfl⟩

theorem indexInvariant_addMeasure {st : WriterState} (hinv : IndexInvariant st) (m : Measure) :
    IndexInvariant (st.addMeasure m) := by
  intro p hp
  simp only [WriterState.addMeasure] at hp ⊢
  rcases List.mem_cons.mp hp with h | h
  · subst h
    exact ⟨m, by simp, rfl⟩
  · obtain ⟨m1, hm1, halias⟩ := hinv p h
    have hlt : p.2 < st.record.Measures.length := (List.getElem?_eq_some_iff.mp hm1).1
    exact ⟨m1, by rw [List.getElem?_append_left hlt, hm1], halias⟩

theorem indexInvariant_mergeAt {χ : Type} [DecidableEq χ] (h : Helpers χ) {st : WriterState}
    (hinv : IndexInvariant st) {j : Nat} (snap : Snapshot) (now : Int)
    (hj : (snap.Station.AliasURL, j) ∈ st.aliasURLToIndex) :
    IndexInvariant (mergeAt h st j snap now).state := by
  obtain ⟨m0, hm0, halias0⟩ := hinv _ hj
  intro p hp
  rw [mergeAt_aliasIndex] at hp
  obtain ⟨m1, hm1, halias1⟩ := hinv p hp
  by_cases hpj : p.2 = j
  · rw [hpj, mergeAt_get_eq h snap now hm0]
    rw [hpj, hm0] at hm1
    have h10 : m0 = m1 := by injection hm1
    refine ⟨_, rfl, ?_⟩
    split
    · rw [h10]; exact halias1
    · have hk : p.1 = snap.Station.AliasURL := by
        rw [← halias1, ← h10]; exact halias0
      rw [hk]; rfl
  · rw [mergeAt_get_ne h st j snap now hpj]
    exact ⟨m1, hm1, halias1⟩

theorem indexInvariant_nextSnapshot {χ : Type} [DecidableEq χ] (h : Helpers χ)
    (cals : List Calibration) {st : WriterState} (hinv : IndexInvariant st) (ev : Event) :
    IndexInvariant (nextSnapshot h cals st ev).state ∧
      (nextSnapshot h cals st ev).exit ≠ .outOfRange := by
  cases ev with
  | done => exact ⟨hinv, by simp [nextSnapshot]⟩
  | idle => exact ⟨hinv, by simp [nextSnapshot]⟩
  | snap snap now =>
    rcases resolve_cases cals st snap with ⟨he, _, _⟩ | ⟨j, hj, hok⟩ | ⟨_, _, hok⟩
    · rw [step_snap_error h now he]
      exact ⟨hinv, by simp⟩
    · rw [step_snap_ok h now hok]
      have hmem := mem_of_lookup hj
      obtain ⟨m0, hm0, _⟩ := hinv _ hmem
      refine ⟨indexInvariant_mergeAt h hinv snap now hmem, ?_⟩
      rw [mergeAt_exit_next h snap now hm0]
      simp
    · rw [step_snap_ok h now hok]
      have hinv1 := indexInvariant_addMeasure hinv
        (placeholder snap (selectCalibration cals snap.Station))
      have hmem : (snap.Station.AliasURL, st.record.Measures.length) ∈
          (st.addMeasure (placeholder snap
            (selectCalibration cals snap.Station))).aliasURLToIndex := by
        simp [WriterState.addMeasure, placeholder]
      obtain ⟨m0, hm0, _⟩ := hinv1 _ hmem
      refine ⟨indexInvariant_mergeAt h hinv1 snap now hmem, ?_⟩
      rw [mergeAt_exit_next h snap now hm0]
      simp

theorem indexInvariant_runWriter {χ : Type} [DecidableEq χ] (h : Helpers χ)
    (cals : List Calibration) (events : List Event) :
    ∀ st : WriterState, IndexInvariant st → IndexInvariant (runWriter h cals st events) := by
  induction events with
  | nil => intro st hinv; exact hinv
  | cons ev evs ih =>
    intro st hinv
    have hstep := (indexInvariant_nextSnapshot h cals hinv ev).1
    simp only [runWriter]
    cases hexit : (nextSnapshot h cals st ev).exit with
    | next => exact ih _ hstep
    | returned e => exact hstep
    | outOfRange => exact hstep

/-- C12: identity-index invariant of the merge loop.  After the index is built
at startup and after every subsequent step, every key `k` of `aliasURLToIndex`
maps to an index `i` with `i < len(record.Measures)` and
`record.Measures[i].Station.AliasURL == k`; so no step indexes
`record.Measures` out of range, and the measure a snapshot is merged into
carries the snapshot's AliasURL. -/
theorem aliasURLToIndex_invariant {χ : Type} [DecidableEq χ] (h : Helpers χ)
    (record : Record) (cals : List Calibration) (events : List Event) :
    (∀ (k : String) (i : Nat),
      (CreateSnapshotsWriter h record cals events).aliasURLToIndex.lookup k = some i →
      i < (CreateSnapshotsWriter h record cals events).record.Measures.length ∧
      ∃ m, (CreateSnapshotsWriter h record cals events).record.Measures[i]? = some m ∧
        m.Station.AliasURL = k) ∧
    (∀ ev : Event,
      (nextSnapshot h cals (CreateSnapshotsWriter h record cals events) ev).exit
        ≠ .outOfRange) ∧
    (∀ (snap : Snapshot) (i : Nat) (st1 : WriterState),
      resolve cals (CreateSnapshotsWriter h record cals events) snap = .ok (i, st1) →
      ∃ m, st1.record.Measures[i]? = some m ∧
        m.Station.AliasURL = snap.Station.AliasURL) := by
  have hinv : IndexInvariant (CreateSnapshotsWriter h record cals events) :=
    indexInvariant_runWriter h cals events _ (indexInvariant_initWriter record)
  refine ⟨?_, fun ev => (indexInvariant_nextSnapshot h cals hinv ev).2, ?_⟩
  · intro k i hk
    obtain ⟨m, hm, halias⟩ := hinv _ (mem_of_lookup hk)
    exact ⟨(List.getElem?_eq_some_iff.mp hm).1, m, hm, halias⟩
  · intro snap i st1 hres
    rcases resolve_cases cals (CreateSnapshotsWriter h record cals events) snap with
      ⟨he, _, _⟩ | ⟨j, hj, hok⟩ | ⟨_, _, hok⟩
    · rw [he] at hres; cases hres
    · rw [hok] at hres
      injection hres with hres
      injection hres with h1 h2
      subst h1; subst h2
      exact hinv _ (mem_of_lookup hj)
    · rw [hok] at hres
      injection hres with hres
      injection hres with h1 h2
      subst h1; subst h2
      exact ⟨placeholder snap (selectCalibration cals snap.Station),
        by simp [WriterState.addMeasure], rfl⟩

/-! ## Publish interval -/

/-- C13 at the configuration of `main` with a cycle that fetched no reading:
`durationBetweenPublish` divides by `total = 0` and returns nothing (the Go
code panics with an integer division by zero), so no ticker is created. -/
theorem durationBetweenPublish_zero_total :
    (mainConfig "" "gauge").durationBetweenPublish 0 = none ∧
    newTickerAccepts ((mainConfig "" "gauge").durationBetweenPublish 0) = false := by
  refine ⟨by decide, by decide⟩

/-- C14 at the configuration of `main` (`MaxPublishPerSecond` 30) with 30000
readings: the interval returned is 33 ms, and 33 * 30 = 990 is below 1000, so
more than 30 snapshots are published per second. -/
theorem durationBetweenPublish_exceeds_rate :
    (mainConfig "" "gauge").durationBetweenPublish 30000 = some (33 * millisecond) ∧
    33 * (mainConfig "" "gauge").MaxPublishPerSecond < 1000 := by
  refine ⟨by decide, by decide⟩

/-! ## Wire codec: decoding what was encoded -/

theorem decodeUInt_encodeUInt (width : Nat) :
    ∀ (n : Nat) (rest : List Nat), n < 256 ^ width →
      decodeUInt width (encodeUInt width n ++ rest) = .ok (n, rest) := by
  induction width with
  | zero =>
    intro n rest hn
    have : n = 0 := by simpa using hn
    subst this
    rfl
  | succ w ih =>
    intro n rest hn
    have hdiv : n / 256 < 256 ^ w := by
      rw [Nat.div_lt_iff_lt_mul (by decide)]
      rw [pow_succ] at hn
      exact hn
    have henc : encodeUInt (w + 1) n ++ rest = n % 256 :: (encodeUInt w (n / 256) ++ rest) :=
      rfl
    have hdec : decodeUInt (w + 1) (n % 256 :: (encodeUInt w (n / 256) ++ rest))
        = match decodeUInt w (encodeUInt w (n / 256) ++ rest) with
          | .error err => .error err
          | .ok (m, rest1) => .ok (n % 256 + 256 * m, rest1) := rfl
    rw [henc, hdec, ih (n / 256) rest hdiv]
    simp only [Nat.mod_add_div]

theorem decodeList_flatMap {α β : Type} (item : List Nat → Except String (β × List Nat))
    (enc : α → List Nat) (f : α → β) (xs : List α) :
    ∀ rest : List Nat, (∀ x ∈ xs, ∀ rest1, item (enc x ++ rest1) = .ok (f x, rest1)) →
      decodeList item xs.length (xs.flatMap enc ++ rest) = .ok (xs.map f, rest) := by
  induction xs with
  | nil => intro rest _; rfl
  | cons x xs ih =>
    intro rest hitem
    have hx := hitem x (List.mem_cons_self _ _) (xs.flatMap enc ++ rest)
    have hxs := ih rest (fun y hy => hitem y (List.mem_cons_of_mem _ hy))
    simp only [List.length_cons, List.flatMap_cons, List.append_assoc, decodeList, hx, hxs,
      List.map_cons]

theorem decodeChar_encodeChar (c : Char) (rest : List Nat) :
    decodeChar (encodeChar c ++ rest) = .ok (c, rest) := by
  have hlt : c.toNat < 256 ^ 4 := c.val.val.isLt
  simp only [decodeChar, encodeChar, decodeUInt_encodeUInt 4 c.toNat rest hlt,
    Char.ofNat_toNat]

theorem decodeString_encodeString (s : String) (rest : List Nat) (hs : stringFits s = true) :
    decodeString (encodeString s ++ rest) = .ok (s, rest) := by
  have hlt : s.length < 256 ^ 4 := by simpa [stringFits] using hs
  have hlist := decodeList_flatMap decodeChar encodeChar id s.data rest
    (fun c _ rest1 => decodeChar_encodeChar c rest1)
  have hlen : s.data.length = s.length := rfl
  rw [hlen] at hlist
  simp only [decodeString, encodeString, List.append_assoc,
    decodeUInt_encodeUInt 4 s.length _ hlt, hlist, List.map_id]

theorem decodeFloat32_encodeFloat32 (x : Float32) (rest : List Nat)
    (hx : float32Fits x = true) :
    decodeFloat32 (encodeFloat32 x ++ rest) = .ok (x, rest) := by
  have hlt : x < 256 ^ 4 := by simpa [float32Fits] using hx
  exact decodeUInt_encodeUInt 4 x rest hlt

theorem decodeTime_encodeTime (t : Int) (rest : List Nat) (ht : timeFits t = true) :
    decodeTime (encodeTime t ++ rest) = .ok (truncateToSecond t, rest) := by
  simp only [timeFits, Bool.and_eq_true, decide_eq_true_eq] at ht
  have hnonneg : 0 ≤ wholeSeconds t := Int.ediv_nonneg ht.1 (by decide)
  have hlt : (wholeSeconds t).toNat < 256 ^ 8 := by
    have := ht.2
    omega
  have hcast : ((wholeSeconds t).toNat : Int) = wholeSeconds t := Int.toNat_of_nonneg hnonneg
  simp only [decodeTime, encodeTime, decodeUInt_encodeUInt 8 _ rest hlt, hcast,
    truncateToSecond]

theorem wholeSeconds_truncateToSecond (t : Int) :
    wholeSeconds (truncateToSecond t) = wholeSeconds t := by
  unfold truncateToSecond wholeSeconds
  exact Int.mul_ediv_cancel _ (by decide)

/-- A Station comes back as it was. -/
theorem decodeStation_encodeStation (st : Station) (rest : List Nat)
    (hst : st.valid = true) :
    decodeStation (encodeStation st ++ rest) = .ok (st, rest) := by
  simp only [Station.valid, Bool.and_eq_true] at hst
  obtain ⟨⟨⟨⟨⟨⟨⟨⟨h1, h2⟩, h3⟩, h4⟩, h5⟩, h6⟩, h7⟩, h8⟩, h9⟩ := hst
  simp only [decodeStation, encodeStation, List.append_assoc, bind, Except.bind, pure,
    Except.pure, decodeString_encodeString _ _ h1, decodeString_encodeString _ _ h2,
    decodeString_encodeString _ _ h3, decodeString_encodeString _ _ h4,
    decodeString_encodeString _ _ h5, decodeFloat32_encodeFloat32 _ _ h6,
    decodeFloat32_encodeFloat32 _ _ h7, decodeString_encodeString _ _ h8,
    decodeString_encodeString _ _ h9]

/-- The Reading with its instant cut to whole seconds. -/
theorem decodeReading_encodeReading (r : Reading) (rest : List Nat) (hr : r.valid = true) :
    decodeReading (encodeReading r ++ rest)
      = .ok (⟨truncateToSecond r.EventTime, r.Value⟩, rest) := by
  simp only [Reading.valid, Bool.and_eq_true] at hr
  simp only [decodeReading, encodeReading, List.append_assoc, bind, Except.bind, pure,
    Except.pure, decodeTime_encodeTime _ _ hr.1, decodeFloat32_encodeFloat32 _ _ hr.2]

/-- A Snapshot comes back with its instants cut to whole seconds, and what
follows it on the wire is left unread. -/
theorem decodeSnapshot_encodeSnapshot (s : Snapshot) (rest : List Nat)
    (hs : s.valid = true) :
    decodeSnapshot (encodeSnapshot s ++ rest) = .ok (s.truncated, rest) := by
  simp only [Snapshot.valid, Bool.and_eq_true, decide_eq_true_eq, List.all_eq_true] at hs
  obtain ⟨⟨⟨⟨⟨h1, h2⟩, h3⟩, h4⟩, h5⟩, h6⟩ := hs
  have hlt : s.Readings.length < 256 ^ 4 := h2
  have hlist : ∀ rest1, decodeList decodeReading s.Readings.length
      (s.Readings.flatMap encodeReading ++ rest1)
      = .ok (s.Readings.map (fun r => ⟨truncateToSecond r.EventTime, r.Value⟩), rest1) :=
    fun rest1 => decodeList_flatMap decodeReading encodeReading
      (fun r => ⟨truncateToSecond r.EventTime, r.Value⟩) s.Readings rest1
      (fun r hr rest2 => decodeReading_encodeReading r rest2 (h3 r hr))
  simp only [decodeSnapshot, encodeSnapshot, List.append_assoc, bind, Except.bind, pure,
    Except.pure, decodeStation_encodeStation _ _ h1, decodeUInt_encodeUInt 4 _ _ hlt, hlist,
    decodeString_encodeString _ _ h4, decodeString_encodeString _ _ h5,
    decodeTime_encodeTime _ _ h6, Snapshot.truncated]

/-- C11: for every valid Snapshot S (every field fits the wire), encoding S
succeeds, and decoding the bytes produced, whatever follows them, succeeds and
yields a Snapshot equal to S field for field: the Station, the Readings in the
same number and order with equal Values, CorrelationID and CausationID, with
each EventTime and the ProcessedTime equal at whole-second granularity. -/
theorem Decode_Encode_roundtrip (s : Snapshot) (hs : s.valid = true) :
    Snapshot.Encode s = .ok (encodeSnapshot s) ∧
    Snapshot.Decode (encodeSnapshot s) = (s.truncated, none) ∧
    ∀ trailing : List Nat,
      (Snapshot.Decode (encodeSnapshot s ++ trailing)).2 = none ∧
      (Snapshot.Decode (encodeSnapshot s ++ trailing)).1.Station = s.Station ∧
      (Snapshot.Decode (encodeSnapshot s ++ trailing)).1.Readings.length
        = s.Readings.length ∧
      (∀ (i : Nat) (r : Reading), s.Readings[i]? = some r →
        ∃ r1, (Snapshot.Decode (encodeSnapshot s ++ trailing)).1.Readings[i]? = some r1 ∧
          r1.Value = r.Value ∧ wholeSeconds r1.EventTime = wholeSeconds r.EventTime) ∧
      (Snapshot.Decode (encodeSnapshot s ++ trailing)).1.CorrelationID = s.CorrelationID ∧
      (Snapshot.Decode (encodeSnapshot s ++ trailing)).1.CausationID = s.CausationID ∧
      wholeSeconds (Snapshot.Decode (encodeSnapshot s ++ trailing)).1.ProcessedTime
        = wholeSeconds s.ProcessedTime := by
  have hdec : ∀ trailing : List Nat,
      Snapshot.Decode (encodeSnapshot s ++ trailing) = (s.truncated, none) := by
    intro trailing
    unfold Snapshot.Decode
    rw [decodeSnapshot_encodeSnapshot s trailing hs]
  refine ⟨by simp [Snapshot.Encode, hs], ?_, ?_⟩
  · have := hdec []
    rwa [List.append_nil] at this
  · intro trailing
    rw [hdec trailing]
    refine ⟨rfl, rfl, by simp [Snapshot.truncated], ?_, rfl, rfl,
      wholeSeconds_truncateToSecond _⟩
    intro i r hr
    refine ⟨⟨truncateToSecond r.EventTime, r.Value⟩, ?_, rfl, wholeSeconds_truncateToSecond _⟩
    simp [Snapshot.truncated, hr]

/-- C11 at the Snapshot of the test, with sub-second parts in its instants. -/
theorem Decode_Encode_roundtrip_witness :
    snapTest.valid = true ∧
    Snapshot.Encode snapTest = .ok (encodeSnapshot snapTest) ∧
    Snapshot.Decode (encodeSnapshot snapTest) = (snapTest.truncated, none) :=
  ⟨by decide, (Decode_Encode_roundtrip snapTest (by decide)).1,
    (Decode_Encode_roundtrip snapTest (by decide)).2.1⟩

end Rainchasers
